import Mathlib

/-!
The hook dispatch engine of git-hooks.

A shallow embedding of `git-run-hooks.c` and `git-generic-hook.c`.

Both programs copy standard input into an unlinked temporary file, list a
directory, keep the entries that are not dot files and that `access(2)` reports
as executable, sort the names with `qsort`/`strcmp`, and run them one after the
other, stopping at the first hook that does not exit with status 0.

The operating system is a record of return values (`World`): every system call
the programs make takes its result from there, so a theorem that quantifies over
the world quantifies over every behaviour of the system.  Memory allocation is
taken to succeed, and the `unsigned` hook counter is taken not to wrap (a
directory of 2^32 hooks is outside the model).  A hook may move the offset of
the standard input it shares with the dispatcher and may write to that file; it
is taken to terminate.
-/

namespace GitHooks

/-! ## C library -/

/-- Bytes of a C string, as `unsigned char` values, the terminating NUL left out. -/
abbrev CStr := List Nat

/-- Value of `EXIT_SUCCESS` in `stdlib.h`. -/
def EXIT_SUCCESS : Nat := 0

/-- Value of `EXIT_FAILURE` in `stdlib.h` (1 in glibc, musl and the BSD libcs). -/
def EXIT_FAILURE : Nat := 1

/-- Value of `ENOENT` in `errno.h`. -/
def ENOENT : Nat := 2

/-- Value of `EACCES` in `errno.h`. -/
def EACCES : Nat := 13

/-- Value of `ENOTDIR` in `errno.h`. -/
def ENOTDIR : Nat := 20

/-- Macro `WIFEXITED(status)` of `sys/wait.h`: `((status) & 0x7f) == 0`. -/
def WIFEXITED (status : Nat) : Bool := status % 128 == 0

/-- Macro `WEXITSTATUS(status)` of `sys/wait.h`: `((status) & 0xff00) >> 8`. -/
def WEXITSTATUS (status : Nat) : Nat := status / 256 % 256

/-- Wait status of a child that called `_exit(ret)`: `(ret & 0xff) << 8`. -/
def W_EXITCODE (ret : Nat) : Nat := ret % 256 * 256

/-- Wait status of a child killed by signal `sig` (1..126), with or without a core dump. -/
def W_SIGNALED (sig : Nat) (core : Bool) : Nat := sig % 128 + (if core then 128 else 0)

/-- Function `strcmp`: the difference of the first pair of bytes that differ, read as
`unsigned char`; the comparison stops at the terminating NUL. -/
def strcmp : CStr → CStr → Int
  | [], [] => 0
  | [], b :: _ => 0 - (b : Int)
  | a :: _, [] => (a : Int) - 0
  | a :: s, b :: t =>
    if a ≠ b then (a : Int) - (b : Int) else if a = 0 then 0 else strcmp s t

/-- Insertion step of the model of `qsort`. -/
def qsortInsert {α : Type} (compar : α → α → Int) (x : α) : List α → List α
  | [] => [x]
  | y :: ys => if compar x y ≤ 0 then x :: y :: ys else y :: qsortInsert compar x ys

/-- Function `qsort(base, nmemb, size, compar)` of the C library, on the array as a list:
the elements in ascending order of `compar`.  The library fixes the result only up to the
order of elements that compare equal; `qsort_unique` shows that this leaves no freedom for
the comparison the programs pass. -/
def qsort {α : Type} (compar : α → α → Int) : List α → List α
  | [] => []
  | x :: xs => qsortInsert compar x (qsort compar xs)

/-- A pointer-sized cell of an argument vector. -/
inductive Ptr where
  /-- Memory fresh from `malloc`. -/
  | uninit
  /-- The pointer `NULL`. -/
  | null
  /-- A pointer to a string. -/
  | str (s : CStr)
  deriving DecidableEq, Repr

/-- One `fork` of the dispatcher followed by `execv(path, nargv)` in the child. -/
structure Spawn where
  /-- First argument of `execv`. -/
  path : CStr
  /-- Second argument of `execv`: the array `nargv`, cell by cell. -/
  nargv : List Ptr
  /-- Offset of the open file behind descriptor 0 at the time of the `fork`. -/
  stdinPos : Nat
  /-- Content of the file behind descriptor 0 at the time of the `fork`. -/
  stdin : List Nat
  deriving DecidableEq, Repr

/-- How the process ended. -/
structure Result where
  /-- Argument of `exit`, or value returned from `main`. -/
  exit : Nat
  /-- Whether the usage text went to standard error. -/
  usage : Bool
  /-- Children forked for hooks, oldest first. -/
  spawned : List Spawn
  deriving DecidableEq, Repr

/-- What `execv(path, nargv)` does in the child. -/
inductive Exec where
  /-- The call returns: the hook could not be started. -/
  | fails
  /-- The hook runs; `status` is the wait status it ends with. -/
  | runs (status : Nat)
  deriving DecidableEq, Repr

/-- Return values the system gives during one round of the dispatch loop. -/
structure HookEnv where
  /-- Return value of `lseek(STDIN_FILENO, 0, SEEK_SET)`. -/
  lseek : Int
  /-- Return value of `fork()` in the dispatcher: negative, or the pid of the child. -/
  fork : Int
  /-- Fate of `execv` in the child. -/
  exec : Exec
  /-- Returns of `wait(&status)` (pid, status) that come before the hook is reaped. -/
  waits : List (Int × Nat)
  /-- Offset at which the hook leaves the file it shares with the dispatcher as descriptor 0. -/
  offset : Nat
  /-- Content of that file when the hook has ended, in case the hook wrote to it: descriptor
  0 is the temporary file, opened by `mkstemp` for reading and writing.  `none` when the hook
  left the content as it was. -/
  rewrite : Option (List Nat)

/-- One return of `read(STDIN_FILENO, buffer, 1024)`. -/
inductive Read where
  /-- A negative return. -/
  | error
  /-- That many bytes were stored in `buffer`. -/
  | data (bytes : List Nat)
  deriving DecidableEq, Repr

/-- Child branch of the `fork` (`pid == 0`), the same text in both programs:
`execv(path, nargv)`, and when that returns a message and `_exit(127)`.  The wait status
the dispatcher will reap for this child. -/
def child : Exec → Nat
  | .runs status => status
  | .fails => W_EXITCODE 127

/-- Bytes of a string literal. -/
def cstr (s : String) : CStr := s.toList.map Char.toNat

end GitHooks

/-! ## git-run-hooks.c -/

namespace GitRunHooks

open GitHooks

/-- Function `xerr(code, format, ...)`: a message with the text of `errno`, then `exit(code)`. -/
def xerr (code : Nat) (spawned : List Spawn) : Result := ⟨code, false, spawned⟩

/-- Function `xerrx(code, format, ...)`: a message, then `exit(code)`. -/
def xerrx (code : Nat) (spawned : List Spawn) : Result := ⟨code, false, spawned⟩

/-- Function `usage(code)`: the usage text, then `exit(code)`. -/
def usage (code : Nat) : Result := ⟨code, true, []⟩

/-- Loop `while (n > 1 && path[n - 1] == '/') path[--n] = '\0';` of `buildfilename`: the value
of `n` when it ends, started at `n`. -/
def stripLoop (path : CStr) : Nat → Nat
  | 0 => 0
  | n + 1 => if n + 1 > 1 ∧ path.getD n 0 = 47 then stripLoop path n else n + 1

/-- Function `buildfilename(s, ..., NULL)`: the variable arguments are the list `ap`. -/
def buildfilename (s : CStr) : List CStr → CStr
  | [] => s.take (stripLoop s s.length)
  | t :: ap => buildfilename (s.take (stripLoop s s.length) ++ [47] ++ t) ap

/-- Function `xstrpcmp`, the comparison handed to `qsort`, on the strings pointed to. -/
def xstrpcmp (s1 s2 : CStr) : Int := strcmp s1 s2

/-- Return values of the system calls and library calls of one run of `main`. -/
structure World where
  /-- Returns of `getopt(argc, argv, "b:h")` before it returns -1, each with `optarg`. -/
  getopt : List (Nat × CStr)
  /-- Strings `argv[optind]` to `argv[argc - 1]` once `getopt` has returned -1. -/
  args : List CStr
  /-- Return of `getenv("GIT_DIR")`, `none` for `NULL`. -/
  getenv : Option CStr
  /-- Return of `mkstemp`. -/
  mkstemp : Int
  /-- Return of `unlink`. -/
  unlink : Int
  /-- Value of `errno` after `unlink`. -/
  unlinkErrno : Nat
  /-- Returns of `read` on standard input, in order; after the last one `read` returns 0. -/
  read : List Read
  /-- Return of the `write` call number `calls` (from 0) when asked to write `count` bytes. -/
  write : Nat → Nat → Int
  /-- Return of `dup2(fd, STDIN_FILENO)`. -/
  dup2 : Int
  /-- Return of `close(fd)`. -/
  close : Int
  /-- Outcome of `opendir(basedir)`: `errno` when it returns `NULL`, else the `d_name` of
  every entry in the order `readdir` yields them. -/
  opendir : Except Nat (List CStr)
  /-- Return of `access(path, X_OK)`. -/
  access : CStr → Int
  /-- System behaviour during round `n` of the dispatch loop. -/
  hook : Nat → HookEnv

/-- Option loop of `main` (`while ((ch = getopt(...)) != -1) switch (ch)`), `basedir` so far. -/
def parseOptions : List (Nat × CStr) → Option CStr → Except Result (Option CStr)
  | [], basedir => .ok basedir
  | (ch, optarg) :: rest, _basedir =>
    if ch = 98 then parseOptions rest (some optarg)       -- case 'b'
    else if ch = 104 ∨ ch = 63 then .error (usage EXIT_SUCCESS)  -- case 'h': case '?':
    else .error (usage EXIT_FAILURE)                      -- default:

/-- Loop `for (j = 0; j < i; )` of `main`: `buffer[0..i)` goes to the temporary file through
`write` calls that may each take only part of what is left.  `none`: the loop is still
running when `fuel` rounds are over.  Otherwise the number of `write` calls made so far and
the file. -/
def writeLoop (write : Nat → Nat → Int) (buffer : List Nat) (i : Nat) :
    Nat → Nat → Nat → List Nat → Option (Except Result (Nat × List Nat))
  | 0, calls, j, file => if j < i then none else some (.ok (calls, file))
  | fuel + 1, calls, j, file =>
    if j < i then
      let k := write calls (i - j)
      if k < 0 then some (.error (xerr EXIT_FAILURE []))
      else writeLoop write buffer i fuel (calls + 1) (j + k.toNat)
        (file ++ (buffer.drop j).take k.toNat)
    else some (.ok (calls, file))

/-- Loop `while ((i = read(STDIN_FILENO, buffer, 1024)) != 0)` of `main`: the content of the
temporary file when standard input is exhausted. -/
def capture (fuel : Nat) (write : Nat → Nat → Int) :
    List Read → Nat → List Nat → Option (Except Result (List Nat))
  | [], _, file => some (.ok file)
  | .error :: _, _, _ => some (.error (xerr EXIT_FAILURE []))
  | .data buffer :: rest, calls, file =>
    if buffer.length = 0 then some (.ok file)
    else
      match writeLoop write buffer buffer.length fuel calls 0 file with
      | none => none
      | some (.error r) => some (.error r)
      | some (.ok (calls, file)) => capture fuel write rest calls file

/-- Loop `while ((d = readdir(dp)) != NULL)` of `main`: the array `hooks` after the loop. -/
def readHooks (basedir : CStr) (access : CStr → Int) : List CStr → List CStr → List CStr
  | [], hooks => hooks
  | d_name :: rest, hooks =>
    if d_name.headD 0 = 46 then readHooks basedir access rest hooks
    else if access (buildfilename basedir [d_name]) = 0 then
      readHooks basedir access rest (hooks ++ [d_name])
    else readHooks basedir access rest hooks

/-- Set-up of the argument vector: `nargv = xmalloc((argc + 2) * sizeof(char *))`, the loop
`nargv[i + 1] = argv[i]` and `nargv[argc + 1] = NULL`. -/
def setupArgv (argv : List CStr) : List Ptr :=
  let argc := argv.length
  let nargv := List.replicate (argc + 2) Ptr.uninit
  let nargv := (List.range argc).foldl
    (fun nargv i => nargv.set (i + 1) (match argv[i]? with | some s => .str s | none => .uninit))
    nargv
  nargv.set (argc + 1) .null

/-- Loop `while ((child = wait(&status)) != pid)`: `none` when `wait` returns a negative
value (`wait` does so as well once there is no child left), else the `status` of `pid`. -/
def waitFor (pid : Int) : List (Int × Nat) → Option Nat
  | [] => none
  | (child, status) :: rest =>
    if child = pid then some status
    else if child < 0 then none
    else waitFor pid rest

/-- Loop `for (n = 0; n < nhooks; ++n)` of `main`, from round `n` on, with the hooks still to
run, the array `nargv`, the offset `pos` and the content `file` of standard input, and the
children forked so far.  `pid` is never 0 in the dispatcher: that branch is
`GitHooks.child`. -/
def runHooks (basedir : CStr) (env : Nat → HookEnv) :
    List CStr → Nat → List Ptr → Nat → List Nat → List Spawn → Result
  | [], _, _, _, _, spawned => ⟨EXIT_SUCCESS, false, spawned⟩
  | hook :: rest, n, nargv, _pos, file, spawned =>
    let path := buildfilename basedir [hook]
    let nargv := nargv.set 0 (.str hook)
    if (env n).lseek < 0 then xerr EXIT_FAILURE spawned
    else
      let pos := 0
      if (env n).fork < 0 then xerr EXIT_FAILURE spawned
      else
        let spawned := spawned ++ [⟨path, nargv, pos, file⟩]
        match waitFor (env n).fork ((env n).waits ++ [((env n).fork, child (env n).exec)]) with
        | none => xerr EXIT_FAILURE spawned
        | some status =>
          if WIFEXITED status && WEXITSTATUS status != 0 then
            ⟨WEXITSTATUS status, false, spawned⟩
          else if !WIFEXITED status then xerrx EXIT_FAILURE spawned
          else runHooks basedir env rest (n + 1) nargv (env n).offset
            ((env n).rewrite.getD file) spawned

/-- Names in the array `hooks` when the dispatch loop starts: what `readdir` yields, filtered
and passed through `qsort`. -/
def hookList (basedir : CStr) (access : CStr → Int) (listing : List CStr) : List CStr :=
  qsort xstrpcmp (readHooks basedir access listing [])

/-- Part of `main` from `opendir(basedir)` to the end, standard input being the temporary
file `file` with the offset at its end. -/
def dispatch (basedir : CStr) (file : List Nat) (w : World) : Result :=
  match w.opendir with
  | .error errno =>
    if errno ≠ ENOENT then xerr EXIT_FAILURE []
    else ⟨EXIT_SUCCESS, false, []⟩
  | .ok listing =>
    runHooks basedir w.hook (hookList basedir w.access listing) 0 (setupArgv w.args)
      file.length file []

/-- Part of `main` up to `close(fd)`: options, `GIT_DIR`, the temporary file and the copy of
standard input.  Gives `basedir` and the content of the temporary file. -/
def setup (fuel : Nat) (w : World) : Option (Except Result (CStr × List Nat)) :=
  match parseOptions w.getopt none with
  | .error r => some (.error r)
  | .ok none => some (.error (usage EXIT_FAILURE))
  | .ok (some basedir) =>
    if w.getenv = none then some (.error (xerrx EXIT_FAILURE []))
    else if w.mkstemp < 0 then some (.error (xerr EXIT_FAILURE []))
    else if w.unlink < 0 ∧ w.unlinkErrno ≠ ENOENT then some (.error (xerr EXIT_FAILURE []))
    else
      match capture fuel w.write w.read 0 [] with
      | none => none
      | some (.error r) => some (.error r)
      | some (.ok file) =>
        if w.dup2 < 0 then some (.error (xerr EXIT_FAILURE []))
        else if w.close < 0 then some (.error (xerr EXIT_FAILURE []))
        else some (.ok (basedir, file))

/-- Function `main`.  `none`: a `write` loop is still running after `fuel` rounds. -/
def main (fuel : Nat) (w : World) : Option Result :=
  match setup fuel w with
  | none => none
  | some (.error r) => some r
  | some (.ok (basedir, file)) => some (dispatch basedir file w)

end GitRunHooks

/-! ## git-generic-hook.c -/

namespace GitGenericHook

open GitHooks

/-- Table `HOOKNAMES`, without the closing `NULL`. -/
def HOOKNAMES : List CStr :=
  [cstr "applypatch-msg", cstr "commit-msg", cstr "post-commit", cstr "post-receive",
   cstr "post-update", cstr "pre-applypatch", cstr "pre-commit", cstr "pre-rebase",
   cstr "prepare-commit-msg", cstr "update"]

/-- Table `GITITEMS`, without the closing `NULL`. -/
def GITITEMS : List CStr :=
  [cstr "HEAD", cstr "hooks", cstr "info", cstr "objects", cstr "refs"]

/-- Function `xerr(code, format, ...)`: a message with the text of `errno`, then `exit(code)`. -/
def xerr (code : Nat) (spawned : List Spawn) : Result := ⟨code, false, spawned⟩

/-- Function `xerrx(code, format, ...)`: a message, then `exit(code)`. -/
def xerrx (code : Nat) (spawned : List Spawn) : Result := ⟨code, false, spawned⟩

/-- Loop `while (n > 1 && path[n - 1] == '/') path[--n] = '\0';` of `xbuildfilename`: the
value of `n` when it ends, started at `n`. -/
def stripLoop (path : CStr) : Nat → Nat
  | 0 => 0
  | n + 1 => if n + 1 > 1 ∧ path.getD n 0 = 47 then stripLoop path n else n + 1

/-- Function `xbuildfilename(s, ..., NULL)`: the variable arguments are the list `ap`. -/
def xbuildfilename (s : CStr) : List CStr → CStr
  | [] => s.take (stripLoop s s.length)
  | t :: ap => xbuildfilename (s.take (stripLoop s s.length) ++ [47] ++ t) ap

/-- Function `xstrpcmp`, the comparison handed to `qsort`, on the strings pointed to. -/
def xstrpcmp (s1 s2 : CStr) : Int := strcmp s1 s2

/-- Return values of the system calls and library calls of one run of `main`. -/
structure World where
  /-- String `argv[0]`. -/
  argv0 : CStr
  /-- Strings `argv[1]` to `argv[argc - 1]`. -/
  args : List CStr
  /-- Return of `getenv("GIT_DIR")`, `none` for `NULL`. -/
  getenv : Option CStr
  /-- Return of `access(path, R_OK)`. -/
  accessR : CStr → Int
  /-- Return of `mkstemp`. -/
  mkstemp : Int
  /-- Return of `unlink`. -/
  unlink : Int
  /-- Value of `errno` after `unlink`. -/
  unlinkErrno : Nat
  /-- Returns of `read` on standard input, in order; after the last one `read` returns 0. -/
  read : List Read
  /-- Return of the `write` call number `calls` (from 0) when asked to write `count` bytes. -/
  write : Nat → Nat → Int
  /-- Return of `dup2(fd, STDIN_FILENO)`. -/
  dup2 : Int
  /-- Outcome of the call `gitconfig("hooks.basedir")`: the code with which it ends the
  process, or the value it returns, `none` for `NULL`. -/
  gitconfig : Except Nat (Option CStr)
  /-- Outcome of `opendir` on the value of `hooks.basedir`: `errno` when it returns `NULL`. -/
  opendirBase : Except Nat Unit
  /-- Outcome of `opendir` on the directory `<hookname>.d`: `errno` when it returns `NULL`,
  else the `d_name` of every entry in the order `readdir` yields them. -/
  opendir : Except Nat (List CStr)
  /-- Return of `access(path, X_OK)`. -/
  access : CStr → Int
  /-- System behaviour during round `n` of the dispatch loop. -/
  hook : Nat → HookEnv

/-- Loop `for (hookname = s = argv[0]; *s != '\0'; ++s) if (*s == '/') hookname = s + 1;`
of `main`, at `s` with `hookname` so far. -/
def hooknameLoop : CStr → CStr → CStr
  | [], hookname => hookname
  | c :: s, hookname => if c = 47 then hooknameLoop s s else hooknameLoop s hookname

/-- Loop `for (j = 0; j < i; )` of `main`, see `GitRunHooks.writeLoop`. -/
def writeLoop (write : Nat → Nat → Int) (buffer : List Nat) (i : Nat) :
    Nat → Nat → Nat → List Nat → Option (Except Result (Nat × List Nat))
  | 0, calls, j, file => if j < i then none else some (.ok (calls, file))
  | fuel + 1, calls, j, file =>
    if j < i then
      let k := write calls (i - j)
      if k < 0 then some (.error (xerr EXIT_FAILURE []))
      else writeLoop write buffer i fuel (calls + 1) (j + k.toNat)
        (file ++ (buffer.drop j).take k.toNat)
    else some (.ok (calls, file))

/-- Loop `for (;;) { i = read(STDIN_FILENO, buffer, 1024); ... }` of `main`: the content of
the temporary file when standard input is exhausted. -/
def capture (fuel : Nat) (write : Nat → Nat → Int) :
    List Read → Nat → List Nat → Option (Except Result (List Nat))
  | [], _, file => some (.ok file)
  | .error :: _, _, _ => some (.error (xerr EXIT_FAILURE []))
  | .data buffer :: rest, calls, file =>
    if buffer.length = 0 then some (.ok file)
    else
      match writeLoop write buffer buffer.length fuel calls 0 file with
      | none => none
      | some (.error r) => some (.error r)
      | some (.ok (calls, file)) => capture fuel write rest calls file

/-- Loop `for (;;) { d = readdir(dp); ... }` of `main`: the array `hooks` after the loop. -/
def readHooks (basedir : CStr) (access : CStr → Int) : List CStr → List CStr → List CStr
  | [], hooks => hooks
  | d_name :: rest, hooks =>
    if d_name.headD 0 = 46 then readHooks basedir access rest hooks
    else if access (xbuildfilename basedir [d_name]) = 0 then
      readHooks basedir access rest (hooks ++ [d_name])
    else readHooks basedir access rest hooks

/-- Set-up of the argument vector: `nargv = xmalloc((argc + 1) * sizeof(char*))`, the loop
`for (i = 1; i < argc; ++i) nargv[i] = argv[i]` and `nargv[i] = NULL`; `argv` is never
empty here, since `main` has read `argv[0]`. -/
def setupArgv (argv : List CStr) : List Ptr :=
  let argc := argv.length
  let nargv := List.replicate (argc + 1) Ptr.uninit
  let nargv := (List.range' 1 (argc - 1)).foldl
    (fun nargv i => nargv.set i (match argv[i]? with | some s => .str s | none => .uninit))
    nargv
  nargv.set (max 1 argc) .null

/-- Loop `for (;;) { child = wait(&status); ... }` of `xhook`: `none` when `wait` returns a
negative value (`wait` does so as well once there is no child left), else the `status` of
`pid`. -/
def waitFor (pid : Int) : List (Int × Nat) → Option Nat
  | [] => none
  | (child, status) :: rest =>
    if child < 0 then none
    else if child = pid then some status
    else waitFor pid rest

/-- Function `xhook(path, argv)`: the children forked so far and the content of standard
input when it returns, or the end of the process.  `pid` is never 0 in the dispatcher:
that branch is `GitHooks.child`. -/
def xhook (e : HookEnv) (file : List Nat) (path : CStr) (argv : List Ptr)
    (spawned : List Spawn) : Except Result (List Spawn × List Nat) :=
  if e.lseek < 0 then .error (xerr EXIT_FAILURE spawned)
  else if e.fork < 0 then .error (xerr EXIT_FAILURE spawned)
  else
    let spawned := spawned ++ [⟨path, argv, 0, file⟩]
    match waitFor e.fork (e.waits ++ [(e.fork, child e.exec)]) with
    | none => .error (xerr EXIT_FAILURE spawned)
    | some status =>
      if WIFEXITED status && WEXITSTATUS status != 0 then
        .error ⟨WEXITSTATUS status, false, spawned⟩
      else if !WIFEXITED status then .error (xerrx EXIT_FAILURE spawned)
      else .ok (spawned, e.rewrite.getD file)

/-- Loop `for (n = 0; n < nhooks; ++n)` of `main`, from round `n` on, with the hooks still to
run, the array `nargv`, the content `file` of standard input and the children forked so
far. -/
def runHooks (basedir : CStr) (env : Nat → HookEnv) :
    List CStr → Nat → List Ptr → List Nat → List Spawn → Result
  | [], _, _, _, spawned => ⟨EXIT_SUCCESS, false, spawned⟩
  | hook :: rest, n, nargv, file, spawned =>
    let path := xbuildfilename basedir [hook]
    let nargv := nargv.set 0 (.str hook)
    match xhook (env n) file path nargv spawned with
    | .error r => r
    | .ok (spawned, file) => runHooks basedir env rest (n + 1) nargv file spawned

/-- Names in the array `hooks` when the dispatch loop starts: what `readdir` yields, filtered
and passed through `qsort`. -/
def hookList (basedir : CStr) (access : CStr → Int) (listing : List CStr) : List CStr :=
  qsort xstrpcmp (readHooks basedir access listing [])

/-- Directory `<hooks.basedir>/<hookname>.d`: `temp` is `hookname` followed by ".d". -/
def hookDir (basedir hookname : CStr) : CStr :=
  xbuildfilename basedir [hookname ++ [46, 100]]

/-- Part of `main` from `gitconfig("hooks.basedir")` to the end, standard input being the
temporary file `file`. -/
def dispatch (hookname : CStr) (file : List Nat) (w : World) : Result :=
  match w.gitconfig with
  | .error code => ⟨code, false, []⟩
  | .ok none => ⟨EXIT_SUCCESS, false, []⟩
  | .ok (some basedir) =>
    match w.opendirBase with
    | .error _ => xerr EXIT_FAILURE []
    | .ok _ =>
      match w.opendir with
      | .error _ => ⟨EXIT_SUCCESS, false, []⟩
      | .ok listing =>
        runHooks (hookDir basedir hookname) w.hook
          (hookList (hookDir basedir hookname) w.access listing) 0
          (setupArgv (w.argv0 :: w.args)) file []

/-- Part of `main` up to `dup2(fd, STDIN_FILENO)`: the hook name, `GIT_DIR`, the temporary
file and the copy of standard input.  Gives `hookname` and the content of the temporary
file. -/
def setup (fuel : Nat) (w : World) : Option (Except Result (CStr × List Nat)) :=
  let hookname := hooknameLoop w.argv0 w.argv0
  if (HOOKNAMES.find? (fun h => strcmp hookname h = 0)).isNone then
    some (.error (xerrx EXIT_FAILURE []))
  else
    match w.getenv with
    | none => some (.error (xerrx EXIT_FAILURE []))
    | some gitdir =>
      if (GITITEMS.find? (fun item => w.accessR (xbuildfilename gitdir [item]) < 0)).isSome then
        some (.error (xerr EXIT_FAILURE []))
      else if w.mkstemp < 0 then some (.error (xerr EXIT_FAILURE []))
      else if w.unlink < 0 ∧ w.unlinkErrno ≠ ENOENT then some (.error (xerr EXIT_FAILURE []))
      else
        match capture fuel w.write w.read 0 [] with
        | none => none
        | some (.error r) => some (.error r)
        | some (.ok file) =>
          if w.dup2 < 0 then some (.error (xerr EXIT_FAILURE []))
          else some (.ok (hookname, file))

/-- Function `main`.  `none`: a `write` loop is still running after `fuel` rounds. -/
def main (fuel : Nat) (w : World) : Option Result :=
  match setup fuel w with
  | none => none
  | some (.error r) => some r
  | some (.ok (hookname, file)) => some (dispatch hookname file w)

end GitGenericHook

/-! ## Vocabulary of the specification -/

namespace GitHooks

/-- The order `qsort` sorts by: `compar` does not put `a` after `b`. -/
def CmpLe {α : Type} (compar : α → α → Int) (a b : α) : Prop := compar a b ≤ 0

/-- A name as `readdir` can yield it: no NUL byte inside. -/
def ValidName (s : CStr) : Prop := ∀ x ∈ s, x ≠ 0

instance (s : CStr) : Decidable (ValidName s) := by unfold ValidName; infer_instance

/-- An entry qualifies as a hook: its name does not begin with a dot and `access(path, X_OK)`
on its path, built by `join`, returns 0. -/
def qualifies (join : CStr → CStr) (access : CStr → Int) (d_name : CStr) : Bool :=
  d_name.headD 0 != 46 && access (join d_name) == 0

/-- The calls of the dispatcher itself succeed in this round: `lseek` and `fork` do, and
`wait` returns only other children before it returns the hook. -/
def HookEnv.Runs (e : HookEnv) : Prop :=
  0 ≤ e.lseek ∧ 0 < e.fork ∧ ∀ p ∈ e.waits, 0 ≤ p.1 ∧ p.1 ≠ e.fork

instance (e : HookEnv) : Decidable e.Runs := by unfold HookEnv.Runs; infer_instance

/-- The hook of this round is run and exits with code `code`.  A hook that `execv` could not
start counts as one that exits with code 127. -/
def HookEnv.Exits (e : HookEnv) (code : Nat) : Prop :=
  e.Runs ∧ WIFEXITED (child e.exec) = true ∧ WEXITSTATUS (child e.exec) = code

instance (e : HookEnv) (code : Nat) : Decidable (e.Exits code) := by
  unfold HookEnv.Exits; infer_instance

/-- The hook of this round is run and does not end by an exit: a signal ends it. -/
def HookEnv.Signaled (e : HookEnv) : Prop :=
  e.Runs ∧ WIFEXITED (child e.exec) = false

instance (e : HookEnv) : Decidable e.Signaled := by unfold HookEnv.Signaled; infer_instance

/-- The `fork`/`execv` the specification asks for: the hook `name` of the directory
`basedir`, with the arguments `tail` and standard input `file` at offset 0. -/
def hookSpawn (join : CStr → CStr) (tail : List CStr) (file : List Nat) (name : CStr) : Spawn :=
  ⟨join name, Ptr.str name :: (tail.map Ptr.str ++ [Ptr.null]), 0, file⟩

/-- One `hookSpawn` for each of `names`, in order, the first in round `n` with standard
input `file`; each later one finds the file as the hook before it left it. -/
def hookSpawns (join : CStr → CStr) (tail : List CStr) (env : Nat → HookEnv) :
    List CStr → Nat → List Nat → List Spawn
  | [], _, _ => []
  | name :: rest, n, file =>
    hookSpawn join tail file name ::
      hookSpawns join tail env rest (n + 1) ((env n).rewrite.getD file)

/-- A directory name without its trailing slashes; a first byte is never taken away, so
that `/` stays `/`. -/
def trimSlashes : CStr → CStr
  | [] => []
  | c :: rest => c :: rest.rdropWhile (fun b => b == 47)

/-- The path of the entry `name` of the directory `basedir`, as the specification has it:
the directory, one slash, the name. -/
def joinPath (basedir name : CStr) : CStr := trimSlashes basedir ++ 47 :: name

/-- The dispatcher's own calls up to the `fork` of this round succeed, and `wait` returns a
negative value before it returns the hook. -/
def HookEnv.WaitFails (e : HookEnv) : Prop :=
  0 ≤ e.lseek ∧ 0 < e.fork ∧
    ∃ pre p post, e.waits = pre ++ p :: post ∧ (∀ q ∈ pre, 0 ≤ q.1 ∧ q.1 ≠ e.fork) ∧ p.1 < 0

/-- The `fork`/`execv` a round of the dispatch loop makes for the hook `name` when it enters
the round with the array `nargv`. -/
def roundSpawn (join : CStr → CStr) (nargv : List Ptr) (file : List Nat) (name : CStr) : Spawn :=
  ⟨join name, nargv.set 0 (Ptr.str name), 0, file⟩

/-- One `roundSpawn` for each of `names`, in order, the first in round `n` with standard
input `file`. -/
def roundSpawns (join : CStr → CStr) (nargv : List Ptr) (env : Nat → HookEnv) :
    List CStr → Nat → List Nat → List Spawn
  | [], _, _ => []
  | name :: rest, n, file =>
    roundSpawn join nargv file name ::
      roundSpawns join nargv env rest (n + 1) ((env n).rewrite.getD file)

/-- Content of standard input after the `k` rounds from round `n` on, `file` before them. -/
def stdinAfter (env : Nat → HookEnv) : Nat → Nat → List Nat → List Nat
  | 0, _, file => file
  | k + 1, n, file => stdinAfter env k (n + 1) ((env n).rewrite.getD file)

end GitHooks

/-! ## Sample runs -/

namespace GitHooks

/-- A round in which the system calls succeed, `wait` first returns another child, and
the child of the round behaves as `exec` says and does not write to its standard input. -/
def sampleHook (exec : Exec) : HookEnv := ⟨0, 4711, exec, [(4000, 0)], 2, none⟩

/-- A directory as `readdir` may yield it. -/
def sampleListing : List CStr :=
  [cstr "03-c", cstr ".", cstr "01-a", cstr "..", cstr "README", cstr "02-b", cstr ".keep"]

/-- Every path but the one that ends in `README` is executable. -/
def sampleAccess (path : CStr) : Int :=
  if path.drop (path.length - 6) = cstr "README" then -1 else 0

/-- A run of `git-run-hooks -b /h// -- refs/heads/main` with five bytes on standard input,
which arrive in two reads and go out in writes of at most two bytes. -/
def sampleRun (opendir : Except Nat (List CStr)) (hook : Nat → HookEnv) : GitRunHooks.World :=
  { getopt := [(98, cstr "/h//")], args := [cstr "refs/heads/main"], getenv := some (cstr ".git"),
    mkstemp := 3, unlink := 0, unlinkErrno := 0, read := [.data [104, 101, 108], .data [108, 111]],
    write := fun _ count => min count 2, dup2 := 0, close := 0, opendir := opendir,
    access := sampleAccess, hook := hook }

/-- A run of `.git/hooks/update refs/heads/main` with `hooks.basedir` set to `/h//`, with five
bytes on standard input, which arrive in two reads and go out in writes of at most two
bytes. -/
def sampleGeneric (opendir : Except Nat (List CStr)) (hook : Nat → HookEnv) :
    GitGenericHook.World :=
  { argv0 := cstr ".git/hooks/update", args := [cstr "refs/heads/main"],
    getenv := some (cstr ".git"), accessR := fun _ => 0,
    mkstemp := 3, unlink := 0, unlinkErrno := 0, read := [.data [104, 101, 108], .data [108, 111]],
    write := fun _ count => min count 2, dup2 := 0, gitconfig := .ok (some (cstr "/h//")),
    opendirBase := .ok (), opendir := opendir, access := sampleAccess, hook := hook }

/-- Hooks that exit with the codes 0, 3, 0, ... in dispatch order. -/
def sampleExit3 (n : Nat) : HookEnv :=
  if n = 1 then sampleHook (.runs (W_EXITCODE 3)) else sampleHook (.runs (W_EXITCODE 0))

/-- Ascending byte-wise order, as the specification words it: `a` comes no later than `b`
when `a` is a prefix of `b`, or `a` has the smaller byte, as an unsigned value, at the first
index where the two differ. -/
def byteLe : CStr → CStr → Bool
  | [], _ => true
  | _ :: _, [] => false
  | a :: s, b :: t => a < b || (a == b && byteLe s t)

/-- A directory with names that numeric order and byte order sort differently. -/
def sampleNumbered : List CStr := [cstr "2-bar", cstr ".git", cstr "10-foo", cstr "1-baz"]

/-- Every hook exits with code 0. -/
def sampleExit0 (_ : Nat) : HookEnv := sampleHook (.runs (W_EXITCODE 0))

/-- The second hook is killed by signal 9, the others exit with code 0. -/
def sampleKilled (n : Nat) : HookEnv :=
  if n = 1 then sampleHook (.runs (W_SIGNALED 9 false)) else sampleHook (.runs (W_EXITCODE 0))

/-- The second hook cannot be started by `execv`, the others exit with code 0. -/
def sampleNoExec (n : Nat) : HookEnv :=
  if n = 1 then sampleHook .fails else sampleHook (.runs (W_EXITCODE 0))

/-- Every hook exits with code 0; the first one has replaced the content of its standard
input, the temporary file, by the single byte `x`. -/
def sampleRewrites (n : Nat) : HookEnv :=
  if n = 0 then { sampleHook (.runs (W_EXITCODE 0)) with rewrite := some [120] }
  else sampleHook (.runs (W_EXITCODE 0))

/-- In the round of the second hook `wait` returns -1 before the hook is reaped. -/
def sampleWaitFails (n : Nat) : HookEnv :=
  if n = 1 then { sampleHook (.runs (W_EXITCODE 0)) with waits := [(4000, 0), (-1, 0)] }
  else sampleHook (.runs (W_EXITCODE 0))

/-- A run of `git-run-hooks` in which `mkstemp` fails. -/
def sampleNoTempFile : GitRunHooks.World :=
  { sampleRun (.ok sampleListing) sampleExit0 with mkstemp := -1 }

/-- A run of `git-generic-hook` under the name `update.sample`, which is no hook. -/
def sampleBadName : GitGenericHook.World :=
  { sampleGeneric (.ok sampleListing) sampleExit0 with argv0 := cstr "hooks/update.sample" }

/-- A run of `git-run-hooks -x`: `getopt` does not know the flag and returns `'?'`. -/
def sampleUnknownFlag : GitRunHooks.World :=
  { sampleRun (.ok sampleListing) sampleExit0 with getopt := [(63, [])] }

/-- A run of `git-run-hooks -b /h// -h`. -/
def sampleHelp : GitRunHooks.World :=
  { sampleRun (.ok sampleListing) sampleExit0 with getopt := [(98, cstr "/h//"), (104, [])] }

/-- A run of `git-run-hooks refs/heads/main`, without any flag. -/
def sampleNoFlag : GitRunHooks.World :=
  { sampleRun (.ok sampleListing) sampleExit0 with getopt := [] }

end GitHooks

/-! ## Lemmas -/

namespace GitHooks

theorem strcmp_total (a b : CStr) : strcmp a b ≤ 0 ∨ strcmp b a ≤ 0 := by
  induction a generalizing b with
  | nil => cases b <;> simp [strcmp]
  | cons x s ih =>
    cases b with
    | nil => simp [strcmp]
    | cons y t =>
      simp only [strcmp]
      rcases ih t with h | h <;> split_ifs <;> omega

theorem strcmp_trans (a b c : CStr) (hab : strcmp a b ≤ 0) (hbc : strcmp b c ≤ 0) :
    strcmp a c ≤ 0 := by
  induction a generalizing b c with
  | nil => cases c <;> simp [strcmp]
  | cons x s ih =>
    cases b with
    | nil =>
      simp only [strcmp] at hab
      cases c with
      | nil => simp only [strcmp]; omega
      | cons z u => simp only [strcmp] at hbc ⊢; split_ifs <;> omega
    | cons y t =>
      cases c with
      | nil => simp only [strcmp] at hab hbc ⊢; split_ifs at hab <;> omega
      | cons z u =>
        simp only [strcmp] at hab hbc ⊢
        split_ifs at hab hbc ⊢ <;> first | omega | exact ih _ _ hab hbc

theorem strcmp_antisymm (a b : CStr) (ha : ∀ x ∈ a, x ≠ 0) (hb : ∀ x ∈ b, x ≠ 0)
    (hab : strcmp a b ≤ 0) (hba : strcmp b a ≤ 0) : a = b := by
  induction a generalizing b with
  | nil =>
    cases b with
    | nil => rfl
    | cons y t =>
      have := hb y (by simp)
      simp only [strcmp] at hab hba; omega
  | cons x s ih =>
    have hx := ha x (by simp)
    cases b with
    | nil => simp only [strcmp] at hab hba; omega
    | cons y t =>
      simp only [strcmp] at hab hba
      split_ifs at hab hba <;> first | omega | skip
      have hxy : x = y := by omega
      subst hxy
      rw [ih t (fun z hz => ha z (by simp [hz])) (fun z hz => hb z (by simp [hz])) hab hba]

theorem qsortInsert_perm {α : Type} (compar : α → α → Int) (x : α) (l : List α) :
    (qsortInsert compar x l).Perm (x :: l) := by
  induction l with
  | nil => simp [qsortInsert]
  | cons y ys ih =>
    simp only [qsortInsert]
    split_ifs
    · exact List.Perm.refl _
    · exact (List.Perm.cons y ih).trans (List.Perm.swap x y ys)

theorem qsort_perm {α : Type} (compar : α → α → Int) (l : List α) :
    (qsort compar l).Perm l := by
  induction l with
  | nil => simp [qsort]
  | cons x xs ih =>
    simp only [qsort]
    exact (qsortInsert_perm compar x _).trans (List.Perm.cons x ih)

theorem qsortInsert_sorted {α : Type} (compar : α → α → Int)
    (htot : ∀ a b, compar a b ≤ 0 ∨ compar b a ≤ 0)
    (htr : ∀ a b c, compar a b ≤ 0 → compar b c ≤ 0 → compar a c ≤ 0)
    (x : α) (l : List α) (hl : l.Pairwise (CmpLe compar)) :
    (qsortInsert compar x l).Pairwise (CmpLe compar) := by
  induction l with
  | nil => simp [qsortInsert]
  | cons y ys ih =>
    rw [List.pairwise_cons] at hl
    simp only [qsortInsert]
    split_ifs with h
    · refine List.Pairwise.cons ?_ (List.Pairwise.cons hl.1 hl.2)
      intro z hz
      rcases List.mem_cons.1 hz with rfl | hz
      · exact h
      · exact htr _ _ _ h (hl.1 z hz)
    · refine List.Pairwise.cons ?_ (ih hl.2)
      intro z hz
      rcases List.mem_cons.1 ((qsortInsert_perm compar x ys).subset hz) with rfl | hz
      · rcases htot z y with h' | h'
        · exact absurd h' h
        · exact h'
      · exact hl.1 z hz

theorem qsort_sorted {α : Type} (compar : α → α → Int)
    (htot : ∀ a b, compar a b ≤ 0 ∨ compar b a ≤ 0)
    (htr : ∀ a b c, compar a b ≤ 0 → compar b c ≤ 0 → compar a c ≤ 0)
    (l : List α) : (qsort compar l).Pairwise (CmpLe compar) := by
  induction l with
  | nil => simp [qsort]
  | cons x xs ih => exact qsortInsert_sorted compar htot htr x _ ih

/-- Two sorted arrangements of the same elements are equal when no two different elements
compare equal. -/
theorem sorted_perm_unique {α : Type} (compar : α → α → Int) :
    ∀ (l₁ l₂ : List α),
      (∀ a ∈ l₁, ∀ b ∈ l₁, compar a b ≤ 0 → compar b a ≤ 0 → a = b) →
      l₁.Perm l₂ → l₁.Pairwise (CmpLe compar) → l₂.Pairwise (CmpLe compar) → l₁ = l₂
  | [], l₂, _, hp, _, _ => (List.Perm.nil_eq hp)
  | a :: l₁, [], _, hp, _, _ => absurd hp.symm (by simp)
  | a :: l₁, b :: l₂, hanti, hp, hs₁, hs₂ => by
    rw [List.pairwise_cons] at hs₁ hs₂
    have hab : a = b := by
      have ha : a ∈ b :: l₂ := hp.subset (List.mem_cons_self _ _)
      have hb : b ∈ a :: l₁ := hp.symm.subset (List.mem_cons_self _ _)
      rcases List.mem_cons.1 ha with h | ha
      · exact h
      rcases List.mem_cons.1 hb with h | hb'
      · exact h.symm
      exact hanti a (List.mem_cons_self _ _) b hb (hs₁.1 b hb') (hs₂.1 a ha)
    subst hab
    have hp' : l₁.Perm l₂ := (List.perm_cons a).1 hp
    rw [sorted_perm_unique compar l₁ l₂
      (fun x hx y hy => hanti x (List.mem_cons_of_mem _ hx) y (List.mem_cons_of_mem _ hy))
      hp' hs₁.2 hs₂.2]

/-- Whatever sorting procedure stands behind `qsort`, its result on NUL-free strings
compared by `strcmp` is the one of the model. -/
theorem qsort_unique (l sorted : List CStr) (hl : ∀ s ∈ l, ValidName s)
    (hp : sorted.Perm l) (hs : sorted.Pairwise (CmpLe strcmp)) :
    sorted = qsort strcmp l := by
  refine sorted_perm_unique strcmp sorted _ ?_ (hp.trans (qsort_perm strcmp l).symm) hs
    (qsort_sorted strcmp strcmp_total strcmp_trans l)
  intro a ha b hb
  exact strcmp_antisymm a b (hl a (hp.subset ha)) (hl b (hp.subset hb))

end GitHooks

namespace GitRunHooks
open GitHooks

theorem readHooks_eq (basedir : CStr) (access : CStr → Int) (listing hooks : List CStr) :
    readHooks basedir access listing hooks =
      hooks ++ listing.filter (qualifies (fun n => buildfilename basedir [n]) access) := by
  induction listing generalizing hooks with
  | nil => simp [readHooks]
  | cons d rest ih =>
    simp only [readHooks, List.filter_cons, qualifies]
    split_ifs with h1 h2 h3 h3 h3 <;> simp_all

theorem waitFor_reaps (pid : Int) (status : Nat) (waits : List (Int × Nat))
    (h : ∀ p ∈ waits, 0 ≤ p.1 ∧ p.1 ≠ pid) :
    waitFor pid (waits ++ [(pid, status)]) = some status := by
  induction waits with
  | nil => simp [waitFor]
  | cons p rest ih =>
    obtain ⟨c, st⟩ := p
    have hp := h (c, st) (by simp)
    simp only [List.cons_append, waitFor]
    rw [if_neg hp.2, if_neg (by simpa using hp.1)]
    exact ih (fun q hq => h q (by simp [hq]))

theorem roundSpawn_set (join : CStr → CStr) (nargv : List Ptr) (p : Ptr) :
    roundSpawn join (nargv.set 0 p) = roundSpawn join nargv := by
  funext file name
  cases nargv <;> simp [roundSpawn, List.set]

theorem roundSpawns_congr (join : CStr → CStr) (nargv nargv' : List Ptr) (env : Nat → HookEnv)
    (h : roundSpawn join nargv' = roundSpawn join nargv) :
    roundSpawns join nargv' env = roundSpawns join nargv env := by
  funext names
  induction names with
  | nil => rfl
  | cons name rest ih =>
    funext n file
    simp only [roundSpawns, h, ih]

theorem roundSpawns_take_succ (join : CStr → CStr) (nargv : List Ptr) (env : Nat → HookEnv) :
    ∀ (k : Nat) (hooks : List CStr) (n : Nat) (file : List Nat) (hk : k < hooks.length),
      roundSpawns join nargv env (hooks.take (k + 1)) n file =
        roundSpawns join nargv env (hooks.take k) n file ++
          [roundSpawn join nargv (stdinAfter env k n file) hooks[k]]
  | _, [], _, _, hk => absurd hk (by simp)
  | 0, hook :: rest, n, file, _ => by simp [roundSpawns, stdinAfter]
  | k + 1, hook :: rest, n, file, hk => by
    have hk' : k < rest.length := by simpa using hk
    simp only [List.take_succ_cons, roundSpawns, stdinAfter, List.getElem_cons_succ,
      List.cons_append]
    rw [roundSpawns_take_succ join nargv env k rest (n + 1) _ hk']

theorem runHooks_round (basedir : CStr) (env : Nat → HookEnv)
    (hook : CStr) (rest : List CStr) (n : Nat) (nargv : List Ptr) (pos : Nat) (file : List Nat)
    (spawned : List Spawn) (hr : (env n).Runs) :
    runHooks basedir env (hook :: rest) n nargv pos file spawned =
      if WIFEXITED (child (env n).exec) && WEXITSTATUS (child (env n).exec) != 0 then
        ⟨WEXITSTATUS (child (env n).exec), false,
          spawned ++ [roundSpawn (fun s => buildfilename basedir [s]) nargv file hook]⟩
      else if !WIFEXITED (child (env n).exec) then
        ⟨EXIT_FAILURE, false,
          spawned ++ [roundSpawn (fun s => buildfilename basedir [s]) nargv file hook]⟩
      else runHooks basedir env rest (n + 1) (nargv.set 0 (.str hook)) (env n).offset
        ((env n).rewrite.getD file)
        (spawned ++ [roundSpawn (fun s => buildfilename basedir [s]) nargv file hook]) := by
  obtain ⟨h1, h2, h3⟩ := hr
  rw [runHooks]
  simp only [if_neg (not_lt.2 h1), if_neg (not_lt.2 (le_of_lt h2)), waitFor_reaps _ _ _ h3]
  rfl

/-- While hooks exit with code 0 the loop goes on to the next one. -/
theorem runHooks_skip (basedir : CStr) (env : Nat → HookEnv) :
    ∀ (k : Nat) (hooks : List CStr) (n : Nat) (nargv : List Ptr) (pos : Nat) (file : List Nat)
      (spawned : List Spawn), k ≤ hooks.length → (∀ i < k, (env (n + i)).Exits 0) →
      ∃ nargv' pos',
        roundSpawn (fun s => buildfilename basedir [s]) nargv' =
          roundSpawn (fun s => buildfilename basedir [s]) nargv ∧
        runHooks basedir env hooks n nargv pos file spawned =
          runHooks basedir env (hooks.drop k) (n + k) nargv' pos' (stdinAfter env k n file)
            (spawned ++ roundSpawns (fun s => buildfilename basedir [s]) nargv env
              (hooks.take k) n file)
  | 0, hooks, n, nargv, pos, file, spawned, _, _ =>
    ⟨nargv, pos, rfl, by simp [stdinAfter, roundSpawns]⟩
  | k + 1, [], _, _, _, _, _, hk, _ => absurd hk (by simp)
  | k + 1, hook :: rest, n, nargv, pos, file, spawned, hk, hex => by
    have h0 := hex 0 (Nat.succ_pos k)
    rw [Nat.add_zero] at h0
    obtain ⟨nargv', pos', hsp, hrun⟩ := runHooks_skip basedir env k rest (n + 1)
      (nargv.set 0 (.str hook)) (env n).offset ((env n).rewrite.getD file)
      (spawned ++ [roundSpawn (fun s => buildfilename basedir [s]) nargv file hook])
      (by simpa using hk)
      (fun i hi => by
        have := hex (i + 1) (Nat.succ_lt_succ hi)
        rwa [show n + (i + 1) = n + 1 + i by omega] at this)
    refine ⟨nargv', pos', hsp.trans (roundSpawn_set _ _ _), ?_⟩
    rw [runHooks_round basedir env hook rest n nargv pos file spawned h0.1, h0.2.1, h0.2.2]
    simp only [EXIT_SUCCESS, bne_self_eq_false, Bool.and_false, Bool.not_true,
      if_false, Bool.false_eq_true]
    rw [hrun, roundSpawns_congr _ _ _ env (roundSpawn_set _ nargv (.str hook))]
    simp [List.append_assoc, roundSpawns, stdinAfter, show n + 1 + k = n + (k + 1) by omega]

theorem runHooks_first_exit (basedir : CStr) (env : Nat → HookEnv)
    (k c : Nat) (hooks : List CStr) (n : Nat) (nargv : List Ptr) (pos : Nat) (file : List Nat)
    (spawned : List Spawn) (hk : k < hooks.length) (hex : ∀ i < k, (env (n + i)).Exits 0)
    (hc : (env (n + k)).Exits c) (hne : c ≠ 0) :
    runHooks basedir env hooks n nargv pos file spawned =
      ⟨c, false, spawned ++ roundSpawns (fun s => buildfilename basedir [s]) nargv env
        (hooks.take (k + 1)) n file⟩ := by
  obtain ⟨nargv', pos', hsp, hrun⟩ :=
    runHooks_skip basedir env k hooks n nargv pos file spawned (le_of_lt hk) hex
  rw [hrun, List.drop_eq_getElem_cons hk, runHooks_round _ _ _ _ _ _ _ _ _ hc.1, hc.2.1, hc.2.2,
    hsp, roundSpawns_take_succ _ _ _ k hooks n file hk]
  simp only [Bool.true_and, bne_iff_ne, ne_eq, hne, not_false_eq_true, if_true,
    List.append_assoc]

theorem runHooks_first_signal (basedir : CStr) (env : Nat → HookEnv)
    (k : Nat) (hooks : List CStr) (n : Nat) (nargv : List Ptr) (pos : Nat) (file : List Nat)
    (spawned : List Spawn) (hk : k < hooks.length) (hex : ∀ i < k, (env (n + i)).Exits 0)
    (hs : (env (n + k)).Signaled) :
    runHooks basedir env hooks n nargv pos file spawned =
      ⟨EXIT_FAILURE, false, spawned ++ roundSpawns (fun s => buildfilename basedir [s]) nargv env
        (hooks.take (k + 1)) n file⟩ := by
  obtain ⟨nargv', pos', hsp, hrun⟩ :=
    runHooks_skip basedir env k hooks n nargv pos file spawned (le_of_lt hk) hex
  rw [hrun, List.drop_eq_getElem_cons hk, runHooks_round _ _ _ _ _ _ _ _ _ hs.1, hs.2, hsp,
    roundSpawns_take_succ _ _ _ k hooks n file hk]
  simp only [List.append_assoc, Bool.false_and, Bool.false_eq_true, if_false, Bool.not_false,
    if_true]

theorem runHooks_all_exit0 (basedir : CStr) (env : Nat → HookEnv)
    (hooks : List CStr) (n : Nat) (nargv : List Ptr) (pos : Nat) (file : List Nat)
    (spawned : List Spawn) (hex : ∀ i < hooks.length, (env (n + i)).Exits 0) :
    runHooks basedir env hooks n nargv pos file spawned =
      ⟨EXIT_SUCCESS, false, spawned ++ roundSpawns (fun s => buildfilename basedir [s]) nargv env
        hooks n file⟩ := by
  obtain ⟨nargv', pos', _, hrun⟩ :=
    runHooks_skip basedir env hooks.length hooks n nargv pos file spawned (le_refl _) hex
  rw [hrun]
  simp [runHooks]

/-- Whatever the system does, the children forked are those of a prefix of the array
`hooks`, in order, one for each. -/
theorem runHooks_spawned (basedir : CStr) (env : Nat → HookEnv) :
    ∀ (hooks : List CStr) (n : Nat) (nargv : List Ptr) (pos : Nat) (file : List Nat)
      (spawned : List Spawn),
      ∃ m, m ≤ hooks.length ∧
        (runHooks basedir env hooks n nargv pos file spawned).spawned =
          spawned ++ roundSpawns (fun s => buildfilename basedir [s]) nargv env
            (hooks.take m) n file
  | [], _, _, _, _, spawned => ⟨0, le_refl _, by simp [runHooks, roundSpawns]⟩
  | hook :: rest, n, nargv, pos, file, spawned => by
    obtain ⟨m, hm, hrest⟩ := runHooks_spawned basedir env rest (n + 1)
      (nargv.set 0 (.str hook)) (env n).offset ((env n).rewrite.getD file)
      (spawned ++ [roundSpawn (fun s => buildfilename basedir [s]) nargv file hook])
    rw [runHooks]
    by_cases h1 : (env n).lseek < 0
    · exact ⟨0, Nat.zero_le _, by simp [h1, xerr, roundSpawns]⟩
    by_cases h2 : (env n).fork < 0
    · exact ⟨0, Nat.zero_le _, by simp [h1, h2, xerr, roundSpawns]⟩
    simp only [if_neg h1, if_neg h2]
    cases hw : waitFor (env n).fork ((env n).waits ++ [((env n).fork, child (env n).exec)]) with
    | none => exact ⟨1, by simp, by simp [xerr, roundSpawn, roundSpawns]⟩
    | some status =>
      simp only
      split_ifs
      · exact ⟨1, by simp, by simp [roundSpawn, roundSpawns]⟩
      · exact ⟨1, by simp, by simp [xerrx, roundSpawn, roundSpawns]⟩
      · refine ⟨m + 1, by simpa using hm, ?_⟩
        have := hrest
        rw [roundSpawns_congr _ _ _ env (roundSpawn_set _ nargv (.str hook))] at this
        simpa [roundSpawn, roundSpawns, List.append_assoc] using this

/-- A hook that the loop reaches, with `lseek` and `fork` succeeding in its round, is forked:
the children forked begin with those of the hooks up to it. -/
theorem runHooks_forked (basedir : CStr) (env : Nat → HookEnv)
    (k : Nat) (hooks : List CStr) (n : Nat) (nargv : List Ptr) (pos : Nat) (file : List Nat)
    (hk : k < hooks.length) (hex : ∀ i < k, (env (n + i)).Exits 0)
    (hl : 0 ≤ (env (n + k)).lseek) (hf : 0 ≤ (env (n + k)).fork) :
    (runHooks basedir env hooks n nargv pos file []).spawned.take (k + 1) =
      roundSpawns (fun s => buildfilename basedir [s]) nargv env (hooks.take (k + 1)) n file := by
  obtain ⟨nargv', pos', hsp, hrun⟩ :=
    runHooks_skip basedir env k hooks n nargv pos file [] (le_of_lt hk) hex
  have hlen : ∀ (names : List CStr) (a : Nat) (f : List Nat),
      (roundSpawns (fun s => buildfilename basedir [s]) nargv env names a f).length =
        names.length := by
    intro names
    induction names with
    | nil => intro a f; rfl
    | cons x xs ih => intro a f; simp [roundSpawns, ih]
  have hpre : ∃ tail, (runHooks basedir env hooks n nargv pos file []).spawned =
      roundSpawns (fun s => buildfilename basedir [s]) nargv env (hooks.take (k + 1)) n file ++
        tail := by
    rw [hrun, List.drop_eq_getElem_cons hk, runHooks, if_neg (not_lt.2 hl),
      if_neg (not_lt.2 hf), roundSpawns_take_succ _ _ _ k hooks n file hk, List.nil_append]
    have hrs : (⟨buildfilename basedir [hooks[k]], nargv'.set 0 (.str hooks[k]), 0,
        stdinAfter env k n file⟩ : Spawn) =
        roundSpawn (fun s => buildfilename basedir [s]) nargv (stdinAfter env k n file)
          hooks[k] := by
      rw [← hsp]; rfl
    simp only [hrs]
    cases waitFor (env (n + k)).fork
        ((env (n + k)).waits ++ [((env (n + k)).fork, child (env (n + k)).exec)]) with
    | none => exact ⟨[], by simp [xerr]⟩
    | some status =>
      simp only
      split_ifs
      · exact ⟨[], by simp⟩
      · exact ⟨[], by simp [xerrx]⟩
      · obtain ⟨m, _, hs⟩ := runHooks_spawned basedir env (hooks.drop (k + 1)) (n + k + 1)
          (nargv'.set 0 (.str hooks[k])) (env (n + k)).offset
          ((env (n + k)).rewrite.getD (stdinAfter env k n file))
          (roundSpawns (fun s => buildfilename basedir [s]) nargv env (hooks.take k) n file ++
            [roundSpawn (fun s => buildfilename basedir [s]) nargv (stdinAfter env k n file)
              hooks[k]])
        exact ⟨_, hs⟩
  obtain ⟨tail, ht⟩ := hpre
  rw [ht, List.take_append_of_le_length (by rw [hlen, List.length_take]; omega),
    List.take_of_length_le (by rw [hlen, List.length_take]; omega)]

theorem foldl_set_args (argv : List CStr) (p : Ptr) (tl : List Ptr) :
    ∀ (n : Nat), n ≤ argv.length → tl.length = argv.length + 1 →
      (List.range n).foldl
        (fun nargv i =>
          nargv.set (i + 1) (match argv[i]? with | some s => Ptr.str s | none => Ptr.uninit))
        (p :: tl) =
      p :: ((argv.take n).map Ptr.str ++ tl.drop n)
  | 0, _, _ => by simp
  | n + 1, hn, hlen => by
    have hn' : n < argv.length := hn
    have hd : n < tl.length := by omega
    rw [List.range_succ, List.foldl_append, foldl_set_args argv p tl n (by omega) hlen]
    simp only [List.foldl_cons, List.foldl_nil, List.getElem?_eq_getElem hn', List.set_cons_succ]
    have hl : ((argv.take n).map Ptr.str).length = n := by
      simp [Nat.min_eq_left (le_of_lt hn')]
    rw [List.set_append_right _ _ (by omega), hl, Nat.sub_self]
    rw [List.take_succ, List.getElem?_eq_getElem hn', List.drop_eq_getElem_cons hd]
    simp only [List.set_cons_zero, Option.toList_some, List.map_append, List.map_cons,
      List.map_nil, List.append_assoc, List.singleton_append]

theorem setupArgv_eq (argv : List CStr) :
    setupArgv argv = Ptr.uninit :: (argv.map Ptr.str ++ [Ptr.null]) := by
  unfold setupArgv
  simp only [List.replicate_succ]
  rw [foldl_set_args argv _ _ argv.length (le_refl _) (by simp)]
  simp only [List.take_length, List.set_cons_succ]
  rw [List.set_append_right _ _ (by simp)]
  simp only [List.length_map, Nat.sub_self]
  rw [List.drop_eq_getElem_cons (by simp)]
  simp

theorem roundSpawn_setupArgv (basedir : CStr) (args : List CStr) :
    roundSpawn (fun s => buildfilename basedir [s]) (setupArgv args) =
      hookSpawn (fun s => buildfilename basedir [s]) args := by
  funext file name
  simp [roundSpawn, hookSpawn, setupArgv_eq]

theorem roundSpawns_setupArgv (basedir : CStr) (args : List CStr) (env : Nat → HookEnv) :
    roundSpawns (fun s => buildfilename basedir [s]) (setupArgv args) env =
      hookSpawns (fun s => buildfilename basedir [s]) args env := by
  funext names
  induction names with
  | nil => rfl
  | cons name rest ih =>
    funext n file
    simp only [roundSpawns, hookSpawns, roundSpawn_setupArgv, ih]

end GitRunHooks

namespace GitGenericHook
open GitHooks

theorem stripLoop_eq (path : CStr) (n : Nat) : stripLoop path n = GitRunHooks.stripLoop path n := by
  induction n with
  | zero => rfl
  | succ n ih => simp only [stripLoop, GitRunHooks.stripLoop, ih]

theorem xbuildfilename_eq (s : CStr) (ap : List CStr) :
    xbuildfilename s ap = GitRunHooks.buildfilename s ap := by
  induction ap generalizing s with
  | nil => simp only [xbuildfilename, GitRunHooks.buildfilename, stripLoop_eq]
  | cons t ap ih => simp only [xbuildfilename, GitRunHooks.buildfilename, stripLoop_eq, ih]

theorem generic_readHooks_eq (basedir : CStr) (access : CStr → Int) (listing hooks : List CStr) :
    readHooks basedir access listing hooks =
      GitRunHooks.readHooks basedir access listing hooks := by
  induction listing generalizing hooks with
  | nil => rfl
  | cons d rest ih => simp only [readHooks, GitRunHooks.readHooks, xbuildfilename_eq, ih]

theorem hookList_eq (basedir : CStr) (access : CStr → Int) (listing : List CStr) :
    hookList basedir access listing = GitRunHooks.hookList basedir access listing := by
  simp only [hookList, GitRunHooks.hookList, generic_readHooks_eq]
  rfl

theorem waitFor_eq (pid : Int) (hpid : ¬ pid < 0) (waits : List (Int × Nat)) :
    waitFor pid waits = GitRunHooks.waitFor pid waits := by
  induction waits with
  | nil => rfl
  | cons p rest ih =>
    obtain ⟨c, st⟩ := p
    simp only [waitFor, GitRunHooks.waitFor, ih]
    split_ifs <;> first | rfl | omega

theorem runHooks_eq (basedir : CStr) (env : Nat → HookEnv) :
    ∀ (hooks : List CStr) (n : Nat) (nargv : List Ptr) (pos : Nat) (file : List Nat)
      (spawned : List Spawn),
      runHooks basedir env hooks n nargv file spawned =
        GitRunHooks.runHooks basedir env hooks n nargv pos file spawned
  | [], _, _, _, _, _ => rfl
  | hook :: rest, n, nargv, pos, file, spawned => by
    rw [runHooks, GitRunHooks.runHooks, xhook]
    by_cases h1 : (env n).lseek < 0
    · simp [h1, xerr, GitRunHooks.xerr]
    by_cases h2 : (env n).fork < 0
    · simp [h1, h2, xerr, GitRunHooks.xerr]
    simp only [if_neg h1, if_neg h2, waitFor_eq _ h2, xbuildfilename_eq]
    cases GitRunHooks.waitFor (env n).fork
        ((env n).waits ++ [((env n).fork, child (env n).exec)]) with
    | none => rfl
    | some status =>
      simp only
      split_ifs
      · rfl
      · rfl
      · exact runHooks_eq basedir env rest (n + 1) _ _ _ _

theorem generic_setupArgv_eq (argv0 : CStr) (args : List CStr) :
    setupArgv (argv0 :: args) = Ptr.uninit :: (args.map Ptr.str ++ [Ptr.null]) := by
  rw [← GitRunHooks.setupArgv_eq]
  unfold setupArgv GitRunHooks.setupArgv
  simp only [List.length_cons, Nat.add_sub_cancel, List.range'_eq_map_range, List.foldl_map]
  have h1 : max 1 (args.length + 1) = args.length + 1 := by omega
  rw [h1]
  congr 2
  funext nargv i
  rw [Nat.add_comm 1 i, List.getElem?_cons_succ]

end GitGenericHook

namespace GitRunHooks
open GitHooks

theorem writeLoop_done (write : Nat → Nat → Int) (buffer : List Nat)
    (hw : ∀ calls count, 0 < count → 1 ≤ write calls count ∧ write calls count ≤ count) :
    ∀ (fuel calls j : Nat) (file : List Nat), j ≤ buffer.length → buffer.length - j ≤ fuel →
      ∃ calls', writeLoop write buffer buffer.length fuel calls j file =
        some (.ok (calls', file ++ buffer.drop j))
  | 0, calls, j, file, hj, hf => by
    have : j = buffer.length := by omega
    subst this
    exact ⟨calls, by simp [writeLoop]⟩
  | fuel + 1, calls, j, file, hj, hf => by
    by_cases hlt : j < buffer.length
    · obtain ⟨h1, h2⟩ := hw calls (buffer.length - j) (by omega)
      have hk : ¬ write calls (buffer.length - j) < 0 := by omega
      obtain ⟨calls', hrec⟩ := writeLoop_done write buffer hw fuel (calls + 1)
        (j + (write calls (buffer.length - j)).toNat)
        (file ++ (buffer.drop j).take (write calls (buffer.length - j)).toNat)
        (by omega) (by omega)
      refine ⟨calls', ?_⟩
      rw [writeLoop, if_pos hlt]
      simp only [if_neg hk]
      rw [hrec, List.append_assoc, ← List.drop_drop, List.take_append_drop]
    · have : j = buffer.length := by omega
      subst this
      exact ⟨calls, by simp [writeLoop]⟩

theorem capture_done (write : Nat → Nat → Int)
    (hw : ∀ calls count, 0 < count → 1 ≤ write calls count ∧ write calls count ≤ count)
    (fuel : Nat) (hfuel : 1024 ≤ fuel) :
    ∀ (chunks : List (List Nat)) (calls : Nat) (file : List Nat),
      (∀ c ∈ chunks, 1 ≤ c.length ∧ c.length ≤ 1024) →
      capture fuel write (chunks.map Read.data) calls file = some (.ok (file ++ chunks.flatten))
  | [], _, file, _ => by simp [capture]
  | c :: rest, calls, file, hc => by
    obtain ⟨h1, h2⟩ := hc c (by simp)
    obtain ⟨calls', hwl⟩ := writeLoop_done write c hw fuel calls 0 file (Nat.zero_le _) (by omega)
    rw [List.map_cons, capture, if_neg (by omega), hwl]
    simp only [List.drop_zero]
    rw [capture_done write hw fuel hfuel rest calls' (file ++ c)
      (fun d hd => hc d (by simp [hd]))]
    simp

theorem parseOptions_error (opts : List (Nat × CStr)) (basedir : Option CStr) (r : Result)
    (h : parseOptions opts basedir = .error r) : r.spawned = [] := by
  induction opts generalizing basedir with
  | nil => simp [parseOptions] at h
  | cons p rest ih =>
    obtain ⟨ch, optarg⟩ := p
    simp only [parseOptions] at h
    split_ifs at h
    · exact ih _ h
    · cases h; rfl
    · cases h; rfl

/-- Once the copy of standard input is known to end with `file`, `setup` ends the process
without a child or hands over `file`. -/
theorem setup_of_capture (fuel : Nat) (w : World) (file : List Nat)
    (hc : capture fuel w.write w.read 0 [] = some (.ok file)) :
    (∃ r, setup fuel w = some (.error r) ∧ r.spawned = []) ∨
      ∃ basedir, setup fuel w = some (.ok (basedir, file)) := by
  unfold setup
  rw [hc]
  cases hp : parseOptions w.getopt none with
  | error r => exact Or.inl ⟨r, rfl, parseOptions_error _ _ _ hp⟩
  | ok b =>
    cases b with
    | none => exact Or.inl ⟨_, rfl, rfl⟩
    | some basedir =>
      simp only
      split_ifs
      · exact Or.inl ⟨_, rfl, rfl⟩
      · exact Or.inl ⟨_, rfl, rfl⟩
      · exact Or.inl ⟨_, rfl, rfl⟩
      · exact Or.inl ⟨_, rfl, rfl⟩
      · exact Or.inl ⟨_, rfl, rfl⟩
      · exact Or.inr ⟨basedir, rfl⟩

theorem mem_hookSpawns (join : CStr → CStr) (tail : List CStr) (env : Nat → HookEnv)
    (s : Spawn) :
    ∀ (names : List CStr) (n : Nat) (file : List Nat),
      s ∈ hookSpawns join tail env names n file →
      ∃ name ∈ names, ∃ content, s = hookSpawn join tail content name
  | [], _, _, h => by cases h
  | name :: rest, n, file, h => by
    rw [hookSpawns, List.mem_cons] at h
    rcases h with h | h
    · exact ⟨name, List.mem_cons_self _ _, file, h⟩
    · obtain ⟨x, hx, c, hc⟩ := mem_hookSpawns join tail env s rest _ _ h
      exact ⟨x, List.mem_cons_of_mem _ hx, c, hc⟩

theorem hookSpawns_of_no_rewrite (join : CStr → CStr) (tail : List CStr) (env : Nat → HookEnv) :
    ∀ (names : List CStr) (n : Nat) (file : List Nat),
      (∀ i, i + 1 < names.length → (env (n + i)).rewrite = none) →
      hookSpawns join tail env names n file = names.map (hookSpawn join tail file)
  | [], _, _, _ => rfl
  | [name], _, _, _ => by simp [hookSpawns]
  | name :: next :: rest, n, file, h => by
    have h0 := h 0 (by simp)
    rw [Nat.add_zero] at h0
    rw [hookSpawns, h0, Option.getD_none,
      hookSpawns_of_no_rewrite join tail env (next :: rest) (n + 1) file
        (fun i hi => by
          have := h (i + 1) (by simpa using hi)
          rwa [show n + (i + 1) = n + 1 + i by omega] at this)]
    rfl

theorem dispatch_spawned (basedir : CStr) (file : List Nat) (w : World) :
    ∃ hooks : List CStr,
      (∀ name ∈ hooks, ∃ listing, w.opendir = .ok listing ∧
        name ∈ hookList basedir w.access listing) ∧
      (dispatch basedir file w).spawned =
        hookSpawns (fun s => buildfilename basedir [s]) w.args w.hook hooks 0 file := by
  unfold dispatch
  cases hd : w.opendir with
  | error errno =>
    refine ⟨[], fun n hn => (by cases hn), ?_⟩
    simp only
    split_ifs <;> rfl
  | ok listing =>
    obtain ⟨m, hm, hs⟩ := runHooks_spawned basedir w.hook
      (hookList basedir w.access listing) 0 (setupArgv w.args) file.length file []
    refine ⟨(hookList basedir w.access listing).take m, ?_, ?_⟩
    · intro n hn
      exact ⟨listing, rfl, List.mem_of_mem_take hn⟩
    · simp only
      rw [hs, roundSpawns_setupArgv, List.nil_append]

theorem main_of_setup (fuel : Nat) (w : World) (basedir : CStr) (file : List Nat)
    (h : setup fuel w = some (.ok (basedir, file))) :
    main fuel w = some (dispatch basedir file w) := by
  simp only [main, h]

theorem dispatch_of_listing (basedir : CStr) (file : List Nat) (w : World)
    (listing : List CStr) (h : w.opendir = .ok listing) :
    dispatch basedir file w =
      runHooks basedir w.hook (hookList basedir w.access listing) 0 (setupArgv w.args)
        file.length file [] := by
  simp only [dispatch, h]

end GitRunHooks

namespace GitGenericHook
open GitHooks

theorem generic_main_of_setup (fuel : Nat) (w : World) (hookname : CStr) (file : List Nat)
    (h : setup fuel w = some (.ok (hookname, file))) :
    main fuel w = some (dispatch hookname file w) := by
  simp only [main, h]

theorem join_eq (dir : CStr) :
    (fun s => xbuildfilename dir [s]) = fun s => GitRunHooks.buildfilename dir [s] := by
  funext s
  exact xbuildfilename_eq dir [s]

theorem generic_dispatch_of_listing (hookname : CStr) (file : List Nat) (w : World)
    (basedir : CStr) (listing : List CStr) (hg : w.gitconfig = .ok (some basedir))
    (hb : w.opendirBase = .ok ()) (h : w.opendir = .ok listing) :
    dispatch hookname file w =
      GitRunHooks.runHooks (hookDir basedir hookname) w.hook
        (GitRunHooks.hookList (hookDir basedir hookname) w.access listing) 0
        (GitRunHooks.setupArgv w.args) 0 file [] := by
  simp only [dispatch, hg, hb, h]
  rw [runHooks_eq _ _ _ _ _ 0, hookList_eq, generic_setupArgv_eq, GitRunHooks.setupArgv_eq]

theorem generic_dispatch_spawned (hookname : CStr) (file : List Nat) (w : World) :
    ∃ hooks : List CStr,
      (∀ name ∈ hooks, ∃ basedir listing, w.gitconfig = .ok (some basedir) ∧
        w.opendir = .ok listing ∧ name ∈ hookList (hookDir basedir hookname) w.access listing) ∧
      (dispatch hookname file w).spawned =
        hookSpawns
          (fun s => match w.gitconfig with
            | .ok (some basedir) => xbuildfilename (hookDir basedir hookname) [s]
            | _ => []) w.args w.hook hooks 0 file := by
  cases hg : w.gitconfig with
  | error code => exact ⟨[], fun n hn => (by cases hn), by simp [dispatch, hg, hookSpawns]⟩
  | ok b =>
    cases b with
    | none => exact ⟨[], fun n hn => (by cases hn), by simp [dispatch, hg, hookSpawns]⟩
    | some basedir =>
      cases hb : w.opendirBase with
      | error e =>
        exact ⟨[], fun n hn => (by cases hn), by simp [dispatch, hg, hb, xerr, hookSpawns]⟩
      | ok u =>
        cases hd : w.opendir with
        | error e =>
          exact ⟨[], fun n hn => (by cases hn), by simp [dispatch, hg, hb, hd, hookSpawns]⟩
        | ok listing =>
          obtain ⟨m, hm, hs⟩ := GitRunHooks.runHooks_spawned (hookDir basedir hookname) w.hook
            (GitRunHooks.hookList (hookDir basedir hookname) w.access listing) 0
            (GitRunHooks.setupArgv w.args) 0 file []
          refine ⟨(hookList (hookDir basedir hookname) w.access listing).take m, ?_, ?_⟩
          · intro n hn
            exact ⟨basedir, listing, rfl, rfl, List.mem_of_mem_take hn⟩
          · rw [generic_dispatch_of_listing hookname file w basedir listing hg hb hd, hs,
              GitRunHooks.roundSpawns_setupArgv, hookList_eq, ← join_eq, List.nil_append]

end GitGenericHook

namespace GitHooks

theorem stripLoop_le (path : CStr) (n : Nat) : GitRunHooks.stripLoop path n ≤ n := by
  induction n with
  | zero => simp [GitRunHooks.stripLoop]
  | succ n ih =>
    rw [GitRunHooks.stripLoop]
    split_ifs
    · omega
    · exact le_refl _

theorem stripLoop_append (p q : CStr) (n : Nat) (h : n ≤ p.length) :
    GitRunHooks.stripLoop (p ++ q) n = GitRunHooks.stripLoop p n := by
  induction n with
  | zero => rfl
  | succ n ih =>
    have hn : n < p.length := h
    rw [GitRunHooks.stripLoop, GitRunHooks.stripLoop, ih (le_of_lt hn),
      List.getD_eq_getElem?_getD, List.getD_eq_getElem?_getD, List.getElem?_append_left hn]

/-- The loop of `buildfilename` that shortens `path` leaves the directory name without its
trailing slashes. -/
theorem stripLoop_trim (s : CStr) :
    s.take (GitRunHooks.stripLoop s s.length) = trimSlashes s := by
  cases s with
  | nil => rfl
  | cons c rest =>
    induction rest using List.reverseRecOn with
    | nil => simp [GitRunHooks.stripLoop, trimSlashes, List.rdropWhile]
    | append_singleton r x ih =>
      have hlen : (c :: (r ++ [x])).length = (r.length + 1) + 1 := by simp
      have hget : (c :: (r ++ [x])).getD (r.length + 1) 0 = x := by
        have : c :: (r ++ [x]) = (c :: r) ++ [x] := rfl
        rw [this, List.getD_eq_getElem?_getD, List.getElem?_append_right (by simp)]
        simp
      rw [hlen, GitRunHooks.stripLoop, hget]
      by_cases hx : x = 47
      · subst hx
        have hcond : r.length + 1 + 1 > 1 ∧ (47 : Nat) = 47 := ⟨by omega, rfl⟩
        rw [if_pos hcond]
        have happ : c :: (r ++ [47]) = (c :: r) ++ [47] := rfl
        rw [happ, stripLoop_append (c :: r) [47] (r.length + 1) (by simp),
          List.take_append_of_le_length (by
            have := stripLoop_le (c :: r) (r.length + 1)
            simpa using this)]
        have ih' : (c :: r).take (GitRunHooks.stripLoop (c :: r) (r.length + 1)) =
            trimSlashes (c :: r) := by simpa using ih
        rw [ih', ← happ, trimSlashes, trimSlashes, List.rdropWhile_concat_pos _ _ _ (by simp)]
      · rw [if_neg (fun h => hx h.2), ← hlen, List.take_length, trimSlashes,
          List.rdropWhile_concat_neg _ _ _ (by simpa using hx)]

theorem trimSlashes_of_last (x : CStr) (front : CStr) (last : Nat) (hx : x = front ++ [last])
    (hl : last ≠ 47) : trimSlashes x = x := by
  subst hx
  cases front with
  | nil => simp [trimSlashes, List.rdropWhile]
  | cons c front =>
    rw [List.cons_append, trimSlashes,
      List.rdropWhile_concat_neg (fun b => b == 47) front last (by simpa using hl)]

theorem buildfilename_join (basedir name : CStr) (hne : name ≠ [])
    (hlast : name.getLast? ≠ some 47) :
    GitRunHooks.buildfilename basedir [name] = joinPath basedir name := by
  simp only [GitRunHooks.buildfilename, stripLoop_trim, joinPath]
  obtain ⟨front, last, rfl⟩ : ∃ front last, name = front ++ [last] :=
    ⟨name.dropLast, name.getLast hne, (List.dropLast_append_getLast hne).symm⟩
  have hl : last ≠ 47 := by simpa using hlast
  rw [trimSlashes_of_last _ (trimSlashes basedir ++ [47] ++ front) last (by simp) hl]
  simp

theorem hookSpawns_path_nargv (join : CStr → CStr) (tail : List CStr) (env : Nat → HookEnv) :
    ∀ (names : List CStr) (n : Nat) (file : List Nat),
      (hookSpawns join tail env names n file).map (fun s => (s.path, s.nargv)) =
        names.map (fun name => (join name, [Ptr.str name] ++ tail.map Ptr.str ++ [Ptr.null]))
  | [], _, _ => rfl
  | name :: rest, n, file => by
    simp [hookSpawns, hookSpawn, hookSpawns_path_nargv join tail env rest]

theorem hookSpawns_stdinPos (join : CStr → CStr) (tail : List CStr) (env : Nat → HookEnv)
    (s : Spawn) (names : List CStr) (n : Nat) (file : List Nat)
    (h : s ∈ hookSpawns join tail env names n file) : s.stdinPos = 0 := by
  obtain ⟨_, _, _, rfl⟩ := GitRunHooks.mem_hookSpawns join tail env s names n file h
  rfl

theorem waitFor_fails (pid : Int) (hpid : 0 ≤ pid) (pre post : List (Int × Nat))
    (p : Int × Nat) (hpre : ∀ q ∈ pre, 0 ≤ q.1 ∧ q.1 ≠ pid) (hp : p.1 < 0) :
    GitRunHooks.waitFor pid (pre ++ p :: post) = none := by
  induction pre with
  | nil =>
    obtain ⟨c, st⟩ := p
    have h1 : ¬ c = pid := by simp at hp; omega
    have h2 : c < 0 := hp
    simp [GitRunHooks.waitFor, h1, h2]
  | cons q rest ih =>
    obtain ⟨c, st⟩ := q
    have hq := hpre (c, st) (by simp)
    simp only [List.cons_append, GitRunHooks.waitFor]
    rw [if_neg hq.2, if_neg (by simpa using hq.1)]
    exact ih (fun x hx => hpre x (by simp [hx]))

/-- The loop ends the process in round `k` when the hook of that round cannot be started,
is ended by a signal, or a call of the dispatcher fails. -/
theorem runHooks_stops (basedir : CStr) (env : Nat → HookEnv)
    (k : Nat) (hooks : List CStr) (nargv : List Ptr) (pos : Nat) (file : List Nat)
    (hk : k < hooks.length) (hex : ∀ i < k, (env i).Exits 0) :
    ((env k).Exits 127 →
      (GitRunHooks.runHooks basedir env hooks 0 nargv pos file []).exit = 127) ∧
    ((env k).Signaled ∨ (env k).lseek < 0 ∨ (env k).fork < 0 ∨ (env k).WaitFails →
      (GitRunHooks.runHooks basedir env hooks 0 nargv pos file []).exit = EXIT_FAILURE) := by
  constructor
  · intro h
    rw [GitRunHooks.runHooks_first_exit basedir env k 127 hooks 0 nargv pos file [] hk
      (fun i hi => by simpa using hex i hi) (by simpa using h) (by decide)]
  · intro h
    rcases h with h | h
    · rw [GitRunHooks.runHooks_first_signal basedir env k hooks 0 nargv pos file [] hk
        (fun i hi => by simpa using hex i hi) (by simpa using h)]
    · obtain ⟨nargv', pos', _, hrun⟩ := GitRunHooks.runHooks_skip basedir env k hooks 0
        nargv pos file [] (le_of_lt hk) (fun i hi => by simpa using hex i hi)
      rw [hrun, List.drop_eq_getElem_cons hk, GitRunHooks.runHooks]
      simp only [Nat.zero_add]
      rcases h with h | h | h
      · rw [if_pos h]; rfl
      · by_cases h1 : (env k).lseek < 0
        · rw [if_pos h1]; rfl
        · rw [if_neg h1, if_pos h]; rfl
      · obtain ⟨h1, h2, pre, p, post, hw, hpre, hp⟩ := h
        rw [if_neg (not_lt.2 h1), if_neg (not_lt.2 (le_of_lt h2)), hw, List.append_assoc,
          List.cons_append, waitFor_fails _ (le_of_lt h2) pre _ p hpre hp]
        rfl

/-- C1: when hook `k` of the sorted dispatch list is the first that exits with a code `c`
other than 0, all hooks before it having exited with 0, the dispatcher ends with exit code
`c`, after one `fork` for each of the hooks 0 to `k`, in that order, and none for a later
hook.  This holds for `git-run-hooks` and for `git-generic-hook`. -/
theorem first_failing_hook_code_is_exit_code :
    (∀ (fuel : Nat) (w : GitRunHooks.World) (basedir : CStr) (file : List Nat)
        (listing : List CStr) (k c : Nat),
      GitRunHooks.setup fuel w = some (.ok (basedir, file)) →
      w.opendir = .ok listing →
      k < (GitRunHooks.hookList basedir w.access listing).length →
      (∀ i < k, (w.hook i).Exits 0) → (w.hook k).Exits c → c ≠ 0 →
      ∃ r, GitRunHooks.main fuel w = some r ∧ r.exit = c ∧
        r.spawned = hookSpawns (fun s => GitRunHooks.buildfilename basedir [s]) w.args w.hook
          ((GitRunHooks.hookList basedir w.access listing).take (k + 1)) 0 file) ∧
    (∀ (fuel : Nat) (w : GitGenericHook.World) (hookname basedir : CStr) (file : List Nat)
        (listing : List CStr) (k c : Nat),
      GitGenericHook.setup fuel w = some (.ok (hookname, file)) →
      w.gitconfig = .ok (some basedir) → w.opendirBase = .ok () →
      w.opendir = .ok listing →
      k < (GitGenericHook.hookList (GitGenericHook.hookDir basedir hookname)
        w.access listing).length →
      (∀ i < k, (w.hook i).Exits 0) → (w.hook k).Exits c → c ≠ 0 →
      ∃ r, GitGenericHook.main fuel w = some r ∧ r.exit = c ∧
        r.spawned = hookSpawns (fun s => GitGenericHook.xbuildfilename
            (GitGenericHook.hookDir basedir hookname) [s]) w.args w.hook
          ((GitGenericHook.hookList (GitGenericHook.hookDir basedir hookname)
            w.access listing).take (k + 1)) 0 file) := by
  constructor
  · intro fuel w basedir file listing k c hs hd hk hex hc hne
    refine ⟨_, GitRunHooks.main_of_setup fuel w basedir file hs, ?_⟩
    rw [GitRunHooks.dispatch_of_listing basedir file w listing hd,
      GitRunHooks.runHooks_first_exit basedir w.hook k c _ 0 _ _ file [] hk
        (fun i hi => by simpa using hex i hi) (by simpa using hc) hne,
      GitRunHooks.roundSpawns_setupArgv]
    exact ⟨rfl, rfl⟩
  · intro fuel w hookname basedir file listing k c hs hg hb hd hk hex hc hne
    refine ⟨_, GitGenericHook.generic_main_of_setup fuel w hookname file hs, ?_⟩
    rw [GitGenericHook.hookList_eq] at hk
    rw [GitGenericHook.generic_dispatch_of_listing hookname file w basedir listing hg hb hd,
      GitRunHooks.runHooks_first_exit _ w.hook k c _ 0 _ _ file [] hk
        (fun i hi => by simpa using hex i hi) (by simpa using hc) hne,
      GitRunHooks.roundSpawns_setupArgv, GitGenericHook.hookList_eq, GitGenericHook.join_eq]
    exact ⟨rfl, rfl⟩

/-- The directory `01-a`, `02-b`, `03-c` with `02-b` exiting with code 3: both programs end
with 3 after running `01-a` and `02-b`. -/
theorem first_failing_hook_code_is_exit_code_witness :
    (∃ r, GitRunHooks.main 1024 (sampleRun (.ok sampleListing) sampleExit3) = some r ∧
      r.exit = 3 ∧
      r.spawned =
        [⟨cstr "/h/01-a", [.str (cstr "01-a"), .str (cstr "refs/heads/main"), .null], 0,
            [104, 101, 108, 108, 111]⟩,
          ⟨cstr "/h/02-b", [.str (cstr "02-b"), .str (cstr "refs/heads/main"), .null], 0,
            [104, 101, 108, 108, 111]⟩]) ∧
    (∃ r, GitGenericHook.main 1024 (sampleGeneric (.ok sampleListing) sampleExit3) = some r ∧
      r.exit = 3 ∧
      r.spawned =
        [⟨cstr "/h/update.d/01-a", [.str (cstr "01-a"), .str (cstr "refs/heads/main"), .null],
            0, [104, 101, 108, 108, 111]⟩,
          ⟨cstr "/h/update.d/02-b", [.str (cstr "02-b"), .str (cstr "refs/heads/main"), .null],
            0, [104, 101, 108, 108, 111]⟩]) :=
  ⟨first_failing_hook_code_is_exit_code.1 1024 (sampleRun (.ok sampleListing) sampleExit3)
      (cstr "/h//") [104, 101, 108, 108, 111] sampleListing 1 3
      (by rfl) (by rfl) (by decide) (by decide) (by decide) (by decide),
    first_failing_hook_code_is_exit_code.2 1024 (sampleGeneric (.ok sampleListing) sampleExit3)
      (cstr "update") (cstr "/h//") [104, 101, 108, 108, 111] sampleListing 1 3
      (by rfl) (by rfl) (by rfl) (by rfl) (by decide) (by decide) (by decide) (by decide)⟩

theorem strcmp_le_iff_byteLe (a b : CStr) (ha : ValidName a) (hb : ValidName b) :
    strcmp a b ≤ 0 ↔ byteLe a b = true := by
  induction a generalizing b with
  | nil => cases b <;> simp [strcmp, byteLe]
  | cons x s ih =>
    have hx : x ≠ 0 := ha x (by simp)
    cases b with
    | nil => simp only [strcmp, byteLe]; constructor <;> intro h <;> first | omega | cases h
    | cons y t =>
      have ih' := ih t (fun z hz => ha z (by simp [hz])) (fun z hz => hb z (by simp [hz]))
      simp only [strcmp, byteLe, Bool.or_eq_true, Bool.and_eq_true, decide_eq_true_eq,
        beq_iff_eq]
      by_cases hxy : x = y
      · subst hxy
        simp only [ne_eq, not_true_eq_false, if_false, if_neg hx, lt_self_iff_false, false_or,
          true_and]
        exact ih'
      · rw [if_pos hxy]
        constructor
        · intro h; left; omega
        · rintro (h | ⟨h, _⟩)
          · omega
          · exact absurd h hxy

theorem hookList_perm_of_perm (basedir : CStr) (access : CStr → Int) (l l' : List CStr)
    (hv : ∀ name ∈ l, ValidName name) (hp : l'.Perm l) :
    GitRunHooks.hookList basedir access l' = GitRunHooks.hookList basedir access l := by
  unfold GitRunHooks.hookList GitRunHooks.xstrpcmp
  rw [GitRunHooks.readHooks_eq, GitRunHooks.readHooks_eq, List.nil_append, List.nil_append]
  apply qsort_unique
  · intro s hs
    exact hv s (List.mem_of_mem_filter hs)
  · exact (qsort_perm _ _).trans (hp.filter _)
  · exact qsort_sorted strcmp strcmp_total strcmp_trans _

/-- C2: when every hook exits with code 0, the hooks run are the qualifying names of the
directory in ascending `strcmp` order, which for names is ascending byte-wise order with
bytes as unsigned values; a directory listing that yields the same entries in another order
gives the same run. -/
theorem dispatch_order_is_bytewise_sorted :
    ∀ (fuel : Nat) (w : GitRunHooks.World) (basedir : CStr) (file : List Nat)
      (listing listing' : List CStr),
      GitRunHooks.setup fuel w = some (.ok (basedir, file)) →
      w.opendir = .ok listing →
      (∀ name ∈ listing, ValidName name) →
      (∀ i < (GitRunHooks.hookList basedir w.access listing).length, (w.hook i).Exits 0) →
      listing'.Perm listing →
      ∃ (r : Result) (sorted : List CStr), GitRunHooks.main fuel w = some r ∧ r.exit = 0 ∧
        r.spawned = hookSpawns (fun s => GitRunHooks.buildfilename basedir [s]) w.args w.hook
          sorted 0 file ∧
        sorted.Perm (listing.filter
          (qualifies (fun s => GitRunHooks.buildfilename basedir [s]) w.access)) ∧
        sorted.Pairwise (fun a b => GitRunHooks.xstrpcmp a b ≤ 0) ∧
        sorted.Pairwise (fun a b => byteLe a b = true) ∧
        GitRunHooks.main fuel { w with opendir := .ok listing' } = some r := by
  intro fuel w basedir file listing listing' hs hd hv hex hp
  have hsorted : (GitRunHooks.hookList basedir w.access listing).Pairwise (CmpLe strcmp) :=
    qsort_sorted strcmp strcmp_total strcmp_trans _
  have hperm : (GitRunHooks.hookList basedir w.access listing).Perm (listing.filter
      (qualifies (fun s => GitRunHooks.buildfilename basedir [s]) w.access)) := by
    unfold GitRunHooks.hookList
    rw [GitRunHooks.readHooks_eq, List.nil_append]
    exact qsort_perm _ _
  have hrun : GitRunHooks.dispatch basedir file w =
      ⟨0, false, hookSpawns (fun s => GitRunHooks.buildfilename basedir [s]) w.args w.hook
        (GitRunHooks.hookList basedir w.access listing) 0 file⟩ := by
    rw [GitRunHooks.dispatch_of_listing basedir file w listing hd,
      GitRunHooks.runHooks_all_exit0 basedir w.hook _ 0 _ _ file []
        (fun i hi => by simpa using hex i hi), GitRunHooks.roundSpawns_setupArgv]
    rfl
  refine ⟨_, GitRunHooks.hookList basedir w.access listing,
    GitRunHooks.main_of_setup fuel w basedir file hs, ?_, ?_, hperm, hsorted, ?_, ?_⟩
  · rw [hrun]
  · rw [hrun]
  · refine hsorted.imp_of_mem ?_
    intro a b ha hb hab
    have hva : ValidName a := hv a (List.mem_of_mem_filter (hperm.subset ha))
    have hvb : ValidName b := hv b (List.mem_of_mem_filter (hperm.subset hb))
    exact (strcmp_le_iff_byteLe a b hva hvb).1 hab
  · have hs' : GitRunHooks.setup fuel { w with opendir := .ok listing' } =
        some (.ok (basedir, file)) := hs
    rw [GitRunHooks.main_of_setup fuel _ basedir file hs',
      GitRunHooks.dispatch_of_listing basedir file _ listing' rfl]
    simp only
    rw [hookList_perm_of_perm basedir w.access listing listing' hv hp, hrun,
      GitRunHooks.runHooks_all_exit0 basedir w.hook _ 0 _ _ file []
        (fun i hi => by simpa using hex i hi), GitRunHooks.roundSpawns_setupArgv]
    rfl

/-- A directory with `2-bar`, `10-foo` and `1-baz`, listed in two different orders. -/
theorem dispatch_order_is_bytewise_sorted_witness :
    ∃ (r : Result) (sorted : List CStr), GitRunHooks.main 1024 (sampleRun (.ok sampleNumbered) sampleExit0) = some r ∧
      r.exit = 0 ∧
      r.spawned = hookSpawns (fun s => GitRunHooks.buildfilename (cstr "/h//") [s])
        [cstr "refs/heads/main"] sampleExit0 sorted 0 [104, 101, 108, 108, 111] ∧
      sorted.Perm (sampleNumbered.filter
        (qualifies (fun s => GitRunHooks.buildfilename (cstr "/h//") [s]) sampleAccess)) ∧
      sorted.Pairwise (fun a b => GitRunHooks.xstrpcmp a b ≤ 0) ∧
      sorted.Pairwise (fun a b => byteLe a b = true) ∧
      GitRunHooks.main 1024
        { sampleRun (.ok sampleNumbered) sampleExit0 with
          opendir := .ok [cstr "10-foo", cstr "1-baz", cstr "2-bar", cstr ".git"] } = some r :=
  dispatch_order_is_bytewise_sorted 1024 (sampleRun (.ok sampleNumbered) sampleExit0)
    (cstr "/h//") [104, 101, 108, 108, 111] sampleNumbered
    [cstr "10-foo", cstr "1-baz", cstr "2-bar", cstr ".git"]
    (by rfl) (by rfl) (by decide) (by decide) (by decide)

/-- The sample directory in dispatch order: `10-foo` comes before `2-bar`. -/
theorem sampleNumbered_dispatch_order :
    GitRunHooks.hookList (cstr "/h//") sampleAccess sampleNumbered =
      [cstr "1-baz", cstr "10-foo", cstr "2-bar"] := by decide

theorem mem_hookList (basedir : CStr) (access : CStr → Int) (listing : List CStr) (name : CStr) :
    name ∈ GitRunHooks.hookList basedir access listing ↔
      name ∈ listing ∧ name.headD 0 ≠ 46 ∧ access (GitRunHooks.buildfilename basedir [name]) = 0 := by
  unfold GitRunHooks.hookList
  rw [(qsort_perm _ _).mem_iff, GitRunHooks.readHooks_eq, List.nil_append, List.mem_filter]
  simp [qualifies]

/-- C3: the dispatch list holds exactly the entries of the directory listing whose name does
not begin with a dot and for which `access(path, X_OK)` on the joined path returned 0, each
as often as the listing has it; and whatever the system does later, every hook run is such
an entry.  This holds for `git-run-hooks` and for `git-generic-hook`. -/
theorem dispatch_list_is_qualifying_entries :
    (∀ (basedir : CStr) (access : CStr → Int) (listing : List CStr),
      (GitRunHooks.hookList basedir access listing).Perm
        (listing.filter (qualifies (fun s => GitRunHooks.buildfilename basedir [s]) access)) ∧
      (∀ name, name ∈ GitRunHooks.hookList basedir access listing ↔
        name ∈ listing ∧ name.headD 0 ≠ 46 ∧
          access (GitRunHooks.buildfilename basedir [name]) = 0) ∧
      (GitGenericHook.hookList basedir access listing).Perm
        (listing.filter (qualifies (fun s => GitGenericHook.xbuildfilename basedir [s]) access)) ∧
      (∀ name, name ∈ GitGenericHook.hookList basedir access listing ↔
        name ∈ listing ∧ name.headD 0 ≠ 46 ∧
          access (GitGenericHook.xbuildfilename basedir [name]) = 0)) ∧
    (∀ (basedir : CStr) (file : List Nat) (w : GitRunHooks.World) (s : Spawn),
      s ∈ (GitRunHooks.dispatch basedir file w).spawned →
      ∃ listing name, w.opendir = .ok listing ∧ name ∈ listing ∧ name.headD 0 ≠ 46 ∧
        w.access (GitRunHooks.buildfilename basedir [name]) = 0 ∧
        s.path = GitRunHooks.buildfilename basedir [name] ∧ s.nargv.head? = some (.str name)) ∧
    (∀ (hookname : CStr) (file : List Nat) (w : GitGenericHook.World) (s : Spawn),
      s ∈ (GitGenericHook.dispatch hookname file w).spawned →
      ∃ basedir listing name, w.gitconfig = .ok (some basedir) ∧ w.opendir = .ok listing ∧
        name ∈ listing ∧ name.headD 0 ≠ 46 ∧
        w.access (GitGenericHook.xbuildfilename (GitGenericHook.hookDir basedir hookname)
          [name]) = 0 ∧
        s.path = GitGenericHook.xbuildfilename (GitGenericHook.hookDir basedir hookname)
          [name] ∧
        s.nargv.head? = some (.str name)) := by
  refine ⟨?_, ?_, ?_⟩
  · intro basedir access listing
    have hperm : (GitRunHooks.hookList basedir access listing).Perm
        (listing.filter (qualifies (fun s => GitRunHooks.buildfilename basedir [s]) access)) := by
      unfold GitRunHooks.hookList
      rw [GitRunHooks.readHooks_eq, List.nil_append]
      exact qsort_perm _ _
    refine ⟨hperm, mem_hookList basedir access listing, ?_, ?_⟩
    · rw [GitGenericHook.hookList_eq, GitGenericHook.join_eq]
      exact hperm
    · intro name
      rw [GitGenericHook.hookList_eq, GitGenericHook.xbuildfilename_eq]
      exact mem_hookList basedir access listing name
  · intro basedir file w s hs
    obtain ⟨hooks, hmem, hsp⟩ := GitRunHooks.dispatch_spawned basedir file w
    rw [hsp] at hs
    obtain ⟨name, hname, content, rfl⟩ := GitRunHooks.mem_hookSpawns _ _ _ s _ _ _ hs
    obtain ⟨listing, hd, hl⟩ := hmem name hname
    obtain ⟨h1, h2, h3⟩ := (mem_hookList basedir w.access listing name).1 hl
    exact ⟨listing, name, hd, h1, h2, h3, rfl, rfl⟩
  · intro hookname file w s hs
    obtain ⟨hooks, hmem, hsp⟩ := GitGenericHook.generic_dispatch_spawned hookname file w
    rw [hsp] at hs
    obtain ⟨name, hname, content, rfl⟩ := GitRunHooks.mem_hookSpawns _ _ _ s _ _ _ hs
    obtain ⟨basedir, listing, hg, hd, hl⟩ := hmem name hname
    rw [GitGenericHook.hookList_eq] at hl
    obtain ⟨h1, h2, h3⟩ :=
      (mem_hookList (GitGenericHook.hookDir basedir hookname) w.access listing name).1 hl
    refine ⟨basedir, listing, name, hg, hd, h1, h2, ?_, ?_, rfl⟩
    · rw [GitGenericHook.xbuildfilename_eq]; exact h3
    · simp [hookSpawn, hg]

/-- The child forked for `02-b` in the sample runs is an entry that qualifies. -/
theorem dispatch_list_is_qualifying_entries_witness :
    (∃ listing name, (sampleRun (.ok sampleListing) sampleExit3).opendir = .ok listing ∧
      name ∈ listing ∧ name.headD 0 ≠ 46 ∧
      (sampleRun (.ok sampleListing) sampleExit3).access
        (GitRunHooks.buildfilename (cstr "/h//") [name]) = 0 ∧
      cstr "/h/02-b" = GitRunHooks.buildfilename (cstr "/h//") [name] ∧
      [Ptr.str (cstr "02-b"), .str (cstr "refs/heads/main"), .null].head? = some (.str name)) ∧
    (∃ basedir listing name,
      (sampleGeneric (.ok sampleListing) sampleExit3).gitconfig = .ok (some basedir) ∧
      (sampleGeneric (.ok sampleListing) sampleExit3).opendir = .ok listing ∧
      name ∈ listing ∧ name.headD 0 ≠ 46 ∧
      (sampleGeneric (.ok sampleListing) sampleExit3).access
        (GitGenericHook.xbuildfilename (GitGenericHook.hookDir basedir (cstr "update"))
          [name]) = 0 ∧
      cstr "/h/update.d/02-b" =
        GitGenericHook.xbuildfilename (GitGenericHook.hookDir basedir (cstr "update")) [name] ∧
      [Ptr.str (cstr "02-b"), .str (cstr "refs/heads/main"), .null].head? = some (.str name)) :=
  ⟨dispatch_list_is_qualifying_entries.2.1 (cstr "/h//") [104, 101, 108, 108, 111]
      (sampleRun (.ok sampleListing) sampleExit3)
      ⟨cstr "/h/02-b", [.str (cstr "02-b"), .str (cstr "refs/heads/main"), .null], 0,
        [104, 101, 108, 108, 111]⟩ (by decide),
    dispatch_list_is_qualifying_entries.2.2 (cstr "update") [104, 101, 108, 108, 111]
      (sampleGeneric (.ok sampleListing) sampleExit3)
      ⟨cstr "/h/update.d/02-b", [.str (cstr "02-b"), .str (cstr "refs/heads/main"), .null], 0,
        [104, 101, 108, 108, 111]⟩ (by decide)⟩

/-- C4: a hook that the dispatch loop reaches, with `lseek` and `fork` succeeding in its
round, is run by `execv` with the array made of the entry name, then the trailing arguments
of the dispatcher in their order, then `NULL`, and with the path `buildfilename` gives for
the base directory and the entry name; no `execv` gets anything else.  For a name that is
not empty and does not end in a slash that path is the directory without its trailing
slashes, one slash, and the name.  In `git-run-hooks` the trailing arguments are those left
after the options, in `git-generic-hook` they are `argv[1]` to `argv[argc - 1]`. -/
theorem hook_argv_is_name_then_tail :
    (∀ (fuel : Nat) (w : GitRunHooks.World) (basedir : CStr) (file : List Nat)
        (listing : List CStr) (k : Nat),
      GitRunHooks.setup fuel w = some (.ok (basedir, file)) →
      w.opendir = .ok listing →
      k < (GitRunHooks.hookList basedir w.access listing).length →
      (∀ i < k, (w.hook i).Exits 0) → 0 ≤ (w.hook k).lseek → 0 ≤ (w.hook k).fork →
      ∃ r, GitRunHooks.main fuel w = some r ∧
        (r.spawned.take (k + 1)).map (fun s => (s.path, s.nargv)) =
          ((GitRunHooks.hookList basedir w.access listing).take (k + 1)).map
            (fun name => (GitRunHooks.buildfilename basedir [name],
              [Ptr.str name] ++ w.args.map Ptr.str ++ [Ptr.null]))) ∧
    (∀ (fuel : Nat) (w : GitRunHooks.World) (basedir : CStr) (file : List Nat) (r : Result)
        (s : Spawn),
      GitRunHooks.setup fuel w = some (.ok (basedir, file)) →
      GitRunHooks.main fuel w = some r → s ∈ r.spawned →
      ∃ name, s.path = GitRunHooks.buildfilename basedir [name] ∧
        s.nargv = [Ptr.str name] ++ w.args.map Ptr.str ++ [Ptr.null]) ∧
    (∀ (fuel : Nat) (w : GitGenericHook.World) (hookname basedir : CStr) (file : List Nat)
        (listing : List CStr) (k : Nat),
      GitGenericHook.setup fuel w = some (.ok (hookname, file)) →
      w.gitconfig = .ok (some basedir) → w.opendirBase = .ok () →
      w.opendir = .ok listing →
      k < (GitGenericHook.hookList (GitGenericHook.hookDir basedir hookname)
        w.access listing).length →
      (∀ i < k, (w.hook i).Exits 0) → 0 ≤ (w.hook k).lseek → 0 ≤ (w.hook k).fork →
      ∃ r, GitGenericHook.main fuel w = some r ∧
        (r.spawned.take (k + 1)).map (fun s => (s.path, s.nargv)) =
          ((GitGenericHook.hookList (GitGenericHook.hookDir basedir hookname)
              w.access listing).take (k + 1)).map
            (fun name => (GitGenericHook.xbuildfilename
                (GitGenericHook.hookDir basedir hookname) [name],
              [Ptr.str name] ++ w.args.map Ptr.str ++ [Ptr.null]))) ∧
    (∀ (fuel : Nat) (w : GitGenericHook.World) (hookname : CStr) (file : List Nat)
        (r : Result) (s : Spawn),
      GitGenericHook.setup fuel w = some (.ok (hookname, file)) →
      GitGenericHook.main fuel w = some r → s ∈ r.spawned →
      ∃ basedir name, w.gitconfig = .ok (some basedir) ∧
        s.path = GitGenericHook.xbuildfilename (GitGenericHook.hookDir basedir hookname)
          [name] ∧
        s.nargv = [Ptr.str name] ++ w.args.map Ptr.str ++ [Ptr.null]) ∧
    (∀ (basedir name : CStr), name ≠ [] → name.getLast? ≠ some 47 →
      GitRunHooks.buildfilename basedir [name] = joinPath basedir name ∧
      GitGenericHook.xbuildfilename basedir [name] = joinPath basedir name) := by
  refine ⟨?_, ?_, ?_, ?_, ?_⟩
  · intro fuel w basedir file listing k hs hd hk hex hl hf
    refine ⟨_, GitRunHooks.main_of_setup fuel w basedir file hs, ?_⟩
    rw [GitRunHooks.dispatch_of_listing basedir file w listing hd,
      GitRunHooks.runHooks_forked basedir w.hook k _ 0 _ _ file hk
        (fun i hi => by simpa using hex i hi) (by simpa using hl) (by simpa using hf),
      GitRunHooks.roundSpawns_setupArgv, hookSpawns_path_nargv]
  · intro fuel w basedir file r s hs hm hmem
    rw [GitRunHooks.main_of_setup fuel w basedir file hs] at hm
    cases hm
    obtain ⟨hooks, _, hsp⟩ := GitRunHooks.dispatch_spawned basedir file w
    rw [hsp] at hmem
    obtain ⟨name, _, content, rfl⟩ := GitRunHooks.mem_hookSpawns _ _ _ s _ _ _ hmem
    exact ⟨name, rfl, by simp [hookSpawn]⟩
  · intro fuel w hookname basedir file listing k hs hg hb hd hk hex hl hf
    refine ⟨_, GitGenericHook.generic_main_of_setup fuel w hookname file hs, ?_⟩
    rw [GitGenericHook.hookList_eq] at hk
    rw [GitGenericHook.generic_dispatch_of_listing hookname file w basedir listing hg hb hd,
      GitRunHooks.runHooks_forked _ w.hook k _ 0 _ _ file hk
        (fun i hi => by simpa using hex i hi) (by simpa using hl) (by simpa using hf),
      GitRunHooks.roundSpawns_setupArgv, hookSpawns_path_nargv, GitGenericHook.hookList_eq]
    simp only [GitGenericHook.xbuildfilename_eq]
  · intro fuel w hookname file r s hs hm hmem
    rw [GitGenericHook.generic_main_of_setup fuel w hookname file hs] at hm
    cases hm
    obtain ⟨hooks, hh, hsp⟩ := GitGenericHook.generic_dispatch_spawned hookname file w
    rw [hsp] at hmem
    obtain ⟨name, hname, content, rfl⟩ := GitRunHooks.mem_hookSpawns _ _ _ s _ _ _ hmem
    obtain ⟨basedir, _, hg, _, _⟩ := hh name hname
    exact ⟨basedir, name, hg, by simp [hookSpawn, hg], by simp [hookSpawn]⟩
  · intro basedir name hne hlast
    refine ⟨buildfilename_join basedir name hne hlast, ?_⟩
    rw [GitGenericHook.xbuildfilename_eq]
    exact buildfilename_join basedir name hne hlast

/-- In the sample runs, where `02-b` exits with code 3, `main` has run `01-a` and `02-b` with
`refs/heads/main` as only argument; the entry `02-b` of the directory `/` has the path
`//02-b`. -/
theorem hook_argv_is_name_then_tail_witness :
    (∃ r, GitRunHooks.main 1024 (sampleRun (.ok sampleListing) sampleExit3) = some r ∧
      (r.spawned.take 2).map (fun s => (s.path, s.nargv)) =
        [(cstr "/h/01-a", [.str (cstr "01-a"), .str (cstr "refs/heads/main"), .null]),
          (cstr "/h/02-b", [.str (cstr "02-b"), .str (cstr "refs/heads/main"), .null])]) ∧
    (∃ name, cstr "/h/02-b" = GitRunHooks.buildfilename (cstr "/h//") [name] ∧
      [Ptr.str (cstr "02-b"), .str (cstr "refs/heads/main"), .null] =
        [Ptr.str name] ++ [Ptr.str (cstr "refs/heads/main")] ++ [Ptr.null]) ∧
    (∃ r, GitGenericHook.main 1024 (sampleGeneric (.ok sampleListing) sampleExit3) = some r ∧
      (r.spawned.take 2).map (fun s => (s.path, s.nargv)) =
        [(cstr "/h/update.d/01-a",
            [.str (cstr "01-a"), .str (cstr "refs/heads/main"), .null]),
          (cstr "/h/update.d/02-b",
            [.str (cstr "02-b"), .str (cstr "refs/heads/main"), .null])]) ∧
    (∃ basedir name,
      (sampleGeneric (.ok sampleListing) sampleExit3).gitconfig = .ok (some basedir) ∧
      cstr "/h/update.d/02-b" =
        GitGenericHook.xbuildfilename (GitGenericHook.hookDir basedir (cstr "update")) [name] ∧
      [Ptr.str (cstr "02-b"), .str (cstr "refs/heads/main"), .null] =
        [Ptr.str name] ++ [Ptr.str (cstr "refs/heads/main")] ++ [Ptr.null]) ∧
    (GitRunHooks.buildfilename (cstr "/") [cstr "02-b"] = cstr "//02-b" ∧
      GitGenericHook.xbuildfilename (cstr "/") [cstr "02-b"] = cstr "//02-b") :=
  ⟨hook_argv_is_name_then_tail.1 1024 (sampleRun (.ok sampleListing) sampleExit3)
      (cstr "/h//") [104, 101, 108, 108, 111] sampleListing 1
      (by rfl) (by rfl) (by decide) (by decide) (by decide) (by decide),
    hook_argv_is_name_then_tail.2.1 1024 (sampleRun (.ok sampleListing) sampleExit3)
      (cstr "/h//") [104, 101, 108, 108, 111] _
      ⟨cstr "/h/02-b", [.str (cstr "02-b"), .str (cstr "refs/heads/main"), .null], 0,
        [104, 101, 108, 108, 111]⟩ (by rfl) (by rfl) (by decide),
    hook_argv_is_name_then_tail.2.2.1 1024 (sampleGeneric (.ok sampleListing) sampleExit3)
      (cstr "update") (cstr "/h//") [104, 101, 108, 108, 111] sampleListing 1
      (by rfl) (by rfl) (by rfl) (by rfl) (by decide) (by decide) (by decide) (by decide),
    hook_argv_is_name_then_tail.2.2.2.1 1024 (sampleGeneric (.ok sampleListing) sampleExit3)
      (cstr "update") [104, 101, 108, 108, 111] _
      ⟨cstr "/h/update.d/02-b", [.str (cstr "02-b"), .str (cstr "refs/heads/main"), .null], 0,
        [104, 101, 108, 108, 111]⟩ (by rfl) (by rfl) (by decide),
    hook_argv_is_name_then_tail.2.2.2.2 (cstr "/") (cstr "02-b") (by decide) (by decide)⟩

theorem setup_ok_capture (fuel : Nat) (w : GitRunHooks.World) (basedir : CStr)
    (file : List Nat) (h : GitRunHooks.setup fuel w = some (.ok (basedir, file))) :
    GitRunHooks.capture fuel w.write w.read 0 [] = some (.ok file) := by
  unfold GitRunHooks.setup at h
  rcases hc : GitRunHooks.capture fuel w.write w.read 0 [] with _ | (r | f)
  all_goals
    rw [hc] at h
    simp only at h
    split at h <;> (try split_ifs at h) <;> (try cases h) <;> (try rfl)

/-- C5, as the code has it: the copy loop of `git-run-hooks` ends, however standard input
arrives in reads of 1 to 1024 bytes and however `write` splits each buffer into parts of at
least one byte, with the temporary file holding the input byte for byte.  Every hook is
forked with standard input at offset 0, wherever earlier hooks left the offset, and a hook
that the loop reaches, with `lseek` and `fork` succeeding in its round, is forked so.  What it
reads from there is the file as the hooks before it left it: the captured input when none
of them wrote to its standard input. -/
theorem captured_input_is_replayed_from_start :
    ∀ (fuel : Nat) (w : GitRunHooks.World) (chunks : List (List Nat)),
      w.read = chunks.map Read.data →
      (∀ c ∈ chunks, 1 ≤ c.length ∧ c.length ≤ 1024) →
      (∀ calls count, 0 < count → 1 ≤ w.write calls count ∧ w.write calls count ≤ count) →
      1024 ≤ fuel →
      GitRunHooks.capture fuel w.write w.read 0 [] = some (.ok chunks.flatten) ∧
      (∃ r, GitRunHooks.main fuel w = some r ∧ ∀ s ∈ r.spawned, s.stdinPos = 0) ∧
      (∀ (basedir : CStr) (file : List Nat) (listing : List CStr) (k : Nat),
        GitRunHooks.setup fuel w = some (.ok (basedir, file)) →
        w.opendir = .ok listing →
        k < (GitRunHooks.hookList basedir w.access listing).length →
        (∀ i < k, (w.hook i).Exits 0) → 0 ≤ (w.hook k).lseek → 0 ≤ (w.hook k).fork →
        ∃ r, GitRunHooks.main fuel w = some r ∧
          r.spawned.take (k + 1) =
            hookSpawns (fun s => GitRunHooks.buildfilename basedir [s]) w.args w.hook
              ((GitRunHooks.hookList basedir w.access listing).take (k + 1)) 0
              chunks.flatten ∧
          ((∀ i < k, (w.hook i).rewrite = none) →
            (r.spawned.take (k + 1)).map (fun s => (s.stdinPos, s.stdin)) =
              List.replicate (k + 1) (0, chunks.flatten))) := by
  intro fuel w chunks hr hc hw hf
  have hcap : GitRunHooks.capture fuel w.write w.read 0 [] = some (.ok chunks.flatten) := by
    rw [hr, GitRunHooks.capture_done w.write hw fuel hf chunks 0 [] hc, List.nil_append]
  refine ⟨hcap, ?_, ?_⟩
  · rcases GitRunHooks.setup_of_capture fuel w _ hcap with ⟨r, hs, hsp⟩ | ⟨basedir, hs⟩
    · refine ⟨r, by simp only [GitRunHooks.main, hs], ?_⟩
      intro s hmem
      rw [hsp] at hmem
      cases hmem
    · refine ⟨_, GitRunHooks.main_of_setup fuel w basedir _ hs, ?_⟩
      intro s hmem
      obtain ⟨hooks, _, hsp⟩ := GitRunHooks.dispatch_spawned basedir chunks.flatten w
      rw [hsp] at hmem
      exact hookSpawns_stdinPos _ _ _ s _ _ _ hmem
  · intro basedir file listing k hs hd hk hex hl hfk
    have hfile : file = chunks.flatten := by
      have := setup_ok_capture fuel w basedir file hs
      rw [hcap] at this
      cases this
      rfl
    subst hfile
    refine ⟨_, GitRunHooks.main_of_setup fuel w basedir _ hs, ?_⟩
    have htake : (GitRunHooks.dispatch basedir chunks.flatten w).spawned.take (k + 1) =
        hookSpawns (fun s => GitRunHooks.buildfilename basedir [s]) w.args w.hook
          ((GitRunHooks.hookList basedir w.access listing).take (k + 1)) 0
          chunks.flatten := by
      rw [GitRunHooks.dispatch_of_listing basedir _ w listing hd,
        GitRunHooks.runHooks_forked basedir w.hook k _ 0 _ _ _ hk
          (fun i hi => by simpa using hex i hi) (by simpa using hl) (by simpa using hfk),
        GitRunHooks.roundSpawns_setupArgv]
    refine ⟨htake, ?_⟩
    intro hno
    rw [htake, GitRunHooks.hookSpawns_of_no_rewrite _ _ _ _ 0 _
      (fun i hi => by
        rw [Nat.zero_add]
        apply hno
        rw [List.length_take] at hi
        omega)]
    rw [List.map_map, List.eq_replicate_iff]
    refine ⟨by rw [List.length_map, List.length_take]; omega, ?_⟩
    intro b hb
    obtain ⟨name, _, rfl⟩ := List.mem_map.1 hb
    rfl

/-- Five bytes read in two parts and written two bytes at a time; `01-a` and `02-b` are forked
with all five at offset 0. -/
theorem captured_input_is_replayed_from_start_witness :
    GitRunHooks.capture 1024 (sampleRun (.ok sampleListing) sampleExit3).write
        (sampleRun (.ok sampleListing) sampleExit3).read 0 [] =
      some (.ok [104, 101, 108, 108, 111]) ∧
    (∃ r, GitRunHooks.main 1024 (sampleRun (.ok sampleListing) sampleExit3) = some r ∧
      ∀ s ∈ r.spawned, s.stdinPos = 0) ∧
    (∃ r, GitRunHooks.main 1024 (sampleRun (.ok sampleListing) sampleExit3) = some r ∧
      r.spawned.take 2 =
        [⟨cstr "/h/01-a", [.str (cstr "01-a"), .str (cstr "refs/heads/main"), .null], 0,
            [104, 101, 108, 108, 111]⟩,
          ⟨cstr "/h/02-b", [.str (cstr "02-b"), .str (cstr "refs/heads/main"), .null], 0,
            [104, 101, 108, 108, 111]⟩] ∧
      (r.spawned.take 2).map (fun s => (s.stdinPos, s.stdin)) =
        [(0, [104, 101, 108, 108, 111]), (0, [104, 101, 108, 108, 111])]) :=
  ⟨(captured_input_is_replayed_from_start 1024 (sampleRun (.ok sampleListing) sampleExit3)
      [[104, 101, 108], [108, 111]] (by rfl) (by decide)
      (fun _ count h => by simp only [sampleRun]; omega) (by decide)).1,
    (captured_input_is_replayed_from_start 1024 (sampleRun (.ok sampleListing) sampleExit3)
      [[104, 101, 108], [108, 111]] (by rfl) (by decide)
      (fun _ count h => by simp only [sampleRun]; omega) (by decide)).2.1,
    ((captured_input_is_replayed_from_start 1024 (sampleRun (.ok sampleListing) sampleExit3)
      [[104, 101, 108], [108, 111]] (by rfl) (by decide)
      (fun _ count h => by simp only [sampleRun]; omega) (by decide)).2.2
      (cstr "/h//") [104, 101, 108, 108, 111] sampleListing 1
      (by rfl) (by rfl) (by decide) (by decide) (by decide) (by decide)).elim
      (fun r h => ⟨r, h.1, h.2.1, h.2.2 (by decide)⟩)⟩

/-- C5 as stated fails: the first hook replaces the content of its standard input, which is
the temporary file itself, and the two hooks after it are forked with the new content, not
with the five bytes the dispatcher had captured. -/
theorem later_hook_is_offered_rewritten_input :
    ∃ r, GitRunHooks.main 1024 (sampleRun (.ok sampleListing) sampleRewrites) = some r ∧
      r.spawned.map (fun s => (s.path, s.stdinPos, s.stdin)) =
        [(cstr "/h/01-a", 0, [104, 101, 108, 108, 111]), (cstr "/h/02-b", 0, [120]),
          (cstr "/h/03-c", 0, [120])] ∧
      ¬ ∀ s ∈ r.spawned, s.stdin = [104, 101, 108, 108, 111] :=
  ⟨_, rfl, by decide, by decide⟩

/-- C6: when `opendir` on the directory to dispatch from fails with `ENOENT`, the program has
exit code 0 and has forked no hook.  This holds for `git-run-hooks` (the
directory given with `-b`) and for `git-generic-hook` (the directory `<hookname>.d` under
the value of `hooks.basedir`). -/
theorem missing_directory_exits_zero :
    (∀ (fuel : Nat) (w : GitRunHooks.World) (basedir : CStr) (file : List Nat),
      GitRunHooks.setup fuel w = some (.ok (basedir, file)) →
      w.opendir = .error ENOENT →
      GitRunHooks.main fuel w = some ⟨0, false, []⟩) ∧
    (∀ (fuel : Nat) (w : GitGenericHook.World) (hookname basedir : CStr) (file : List Nat),
      GitGenericHook.setup fuel w = some (.ok (hookname, file)) →
      w.gitconfig = .ok (some basedir) → w.opendirBase = .ok () →
      w.opendir = .error ENOENT →
      GitGenericHook.main fuel w = some ⟨0, false, []⟩) := by
  constructor
  · intro fuel w basedir file hs hd
    rw [GitRunHooks.main_of_setup fuel w basedir file hs]
    simp [GitRunHooks.dispatch, hd, EXIT_SUCCESS]
  · intro fuel w hookname basedir file hs hg hb hd
    rw [GitGenericHook.generic_main_of_setup fuel w hookname file hs]
    simp [GitGenericHook.dispatch, hg, hb, hd, EXIT_SUCCESS]

/-- Both sample runs with a directory that does not exist. -/
theorem missing_directory_exits_zero_witness :
    GitRunHooks.main 1024 (sampleRun (.error ENOENT) sampleExit3) = some ⟨0, false, []⟩ ∧
    GitGenericHook.main 1024 (sampleGeneric (.error ENOENT) sampleExit3) =
      some ⟨0, false, []⟩ :=
  ⟨missing_directory_exits_zero.1 1024 (sampleRun (.error ENOENT) sampleExit3) (cstr "/h//")
      [104, 101, 108, 108, 111] (by rfl) (by rfl),
    missing_directory_exits_zero.2 1024 (sampleGeneric (.error ENOENT) sampleExit3)
      (cstr "update") (cstr "/h//") [104, 101, 108, 108, 111] (by rfl) (by rfl) (by rfl)
      (by rfl)⟩

/-- C7, at the failing input: `opendir` fails with `EACCES`.  `git-run-hooks` ends with
`EXIT_FAILURE`; `git-generic-hook`, whose `<hookname>.d` cannot be opened, ends with exit
code 0. -/
theorem unreadable_directory_generic_hook_exits_zero :
    GitRunHooks.main 1024 (sampleRun (.error EACCES) sampleExit3) =
      some ⟨EXIT_FAILURE, false, []⟩ ∧
    GitGenericHook.main 1024 (sampleGeneric (.error EACCES) sampleExit3) =
      some ⟨0, false, []⟩ := by
  constructor <;> rfl

/-- For `git-run-hooks` alone the claim C7 holds: an `opendir` that fails with anything but
`ENOENT` ends the program with `EXIT_FAILURE` and no hook forked. -/
theorem run_hooks_unreadable_directory_is_fatal (fuel : Nat) (w : GitRunHooks.World)
    (basedir : CStr) (file : List Nat) (errno : Nat)
    (hs : GitRunHooks.setup fuel w = some (.ok (basedir, file)))
    (hd : w.opendir = .error errno) (hne : errno ≠ ENOENT) :
    GitRunHooks.main fuel w = some ⟨EXIT_FAILURE, false, []⟩ := by
  rw [GitRunHooks.main_of_setup fuel w basedir file hs]
  simp [GitRunHooks.dispatch, hd, hne, GitRunHooks.xerr]

/-- In `git-generic-hook` every failure of `opendir` on `<hookname>.d` ends the program with
exit code 0. -/
theorem generic_hook_unreadable_directory_exits_zero (fuel : Nat) (w : GitGenericHook.World)
    (hookname basedir : CStr) (file : List Nat) (errno : Nat)
    (hs : GitGenericHook.setup fuel w = some (.ok (hookname, file)))
    (hg : w.gitconfig = .ok (some basedir)) (hb : w.opendirBase = .ok ())
    (hd : w.opendir = .error errno) :
    GitGenericHook.main fuel w = some ⟨0, false, []⟩ := by
  rw [GitGenericHook.generic_main_of_setup fuel w hookname file hs]
  simp [GitGenericHook.dispatch, hg, hb, hd, EXIT_SUCCESS]

theorem parseOptions_skip_b (pre rest : List (Nat × CStr)) (basedir : Option CStr)
    (h : ∀ p ∈ pre, p.1 = 98) :
    ∃ basedir', GitRunHooks.parseOptions (pre ++ rest) basedir =
      GitRunHooks.parseOptions rest basedir' := by
  induction pre generalizing basedir with
  | nil => exact ⟨basedir, rfl⟩
  | cons p pre ih =>
    obtain ⟨ch, optarg⟩ := p
    have hch : ch = 98 := h (ch, optarg) (by simp)
    obtain ⟨b', hb'⟩ := ih (some optarg) (fun q hq => h q (by simp [hq]))
    exact ⟨b', by rw [List.cons_append, GitRunHooks.parseOptions, if_pos hch, hb']⟩

/-- C8, as the code has it: `-h`, and equally a flag `getopt` does not recognize (it
returns `'?'`), prints the usage text and ends with exit code 0, whatever `-b` flags came
before; a command line on which `getopt` reports no `-b`, no `-h` and no unrecognized flag
prints the usage text and ends with `EXIT_FAILURE`, which is not 0. -/
theorem help_and_unknown_flag_exit_zero_missing_basedir_fails :
    (∀ (fuel : Nat) (w : GitRunHooks.World) (pre post : List (Nat × CStr)) (ch : Nat)
        (optarg : CStr),
      w.getopt = pre ++ (ch, optarg) :: post → (∀ p ∈ pre, p.1 = 98) →
      ch = 104 ∨ ch = 63 →
      GitRunHooks.main fuel w = some ⟨0, true, []⟩) ∧
    (∀ (fuel : Nat) (w : GitRunHooks.World),
      (∀ p ∈ w.getopt, p.1 ≠ 98 ∧ p.1 ≠ 104 ∧ p.1 ≠ 63) →
      GitRunHooks.main fuel w = some ⟨EXIT_FAILURE, true, []⟩ ∧ EXIT_FAILURE ≠ 0) := by
  constructor
  · intro fuel w pre post ch optarg hopt hpre hch
    obtain ⟨b', hb'⟩ := parseOptions_skip_b pre ((ch, optarg) :: post) none hpre
    have hne : ch ≠ 98 := by omega
    simp only [GitRunHooks.main, GitRunHooks.setup, hopt, hb', GitRunHooks.parseOptions,
      if_neg hne, if_pos hch]
    rfl
  · intro fuel w hall
    refine ⟨?_, by decide⟩
    cases hopt : w.getopt with
    | nil => simp only [GitRunHooks.main, GitRunHooks.setup, hopt, GitRunHooks.parseOptions]; rfl
    | cons p rest =>
      obtain ⟨ch, optarg⟩ := p
      obtain ⟨h1, h2, h3⟩ := hall (ch, optarg) (by simp [hopt])
      have h1' : ch ≠ 98 := h1
      have h23 : ¬ (ch = 104 ∨ ch = 63) := fun h => h.elim h2 h3
      simp only [GitRunHooks.main, GitRunHooks.setup, hopt, GitRunHooks.parseOptions,
        if_neg h1', if_neg h23]
      rfl

/-- The command lines `-b /h// -h` and one without any flag. -/
theorem help_and_unknown_flag_exit_zero_missing_basedir_fails_witness :
    GitRunHooks.main 0 sampleHelp = some ⟨0, true, []⟩ ∧
    (GitRunHooks.main 0 sampleNoFlag = some ⟨EXIT_FAILURE, true, []⟩ ∧ EXIT_FAILURE ≠ 0) :=
  ⟨help_and_unknown_flag_exit_zero_missing_basedir_fails.1 0 sampleHelp [(98, cstr "/h//")] []
      104 [] (by rfl) (by decide) (by decide),
    help_and_unknown_flag_exit_zero_missing_basedir_fails.2 0 sampleNoFlag (by decide)⟩

/-- C8 as stated fails: on `git-run-hooks -x`, where `getopt` returns `'?'`, the program
prints the usage text and ends with exit code 0, not with a non-zero one. -/
theorem unknown_flag_exit_code_is_not_nonzero :
    ∃ r, GitRunHooks.main 0 sampleUnknownFlag = some r ∧ r.usage = true ∧ ¬ r.exit ≠ 0 :=
  ⟨⟨0, true, []⟩, rfl, rfl, by decide⟩

/-- C9: when hook `k` of the sorted dispatch list is the first that does not exit with code
0 and a signal ends it, the dispatcher ends with `EXIT_FAILURE`, a non-zero code that is the
same for every hook and signal, after one `fork` for each of the hooks 0 to `k` and none for
a later hook.  This holds for `git-run-hooks` and for `git-generic-hook`. -/
theorem signaled_hook_aborts_with_fixed_code :
    (∀ (fuel : Nat) (w : GitRunHooks.World) (basedir : CStr) (file : List Nat)
        (listing : List CStr) (k : Nat),
      GitRunHooks.setup fuel w = some (.ok (basedir, file)) →
      w.opendir = .ok listing →
      k < (GitRunHooks.hookList basedir w.access listing).length →
      (∀ i < k, (w.hook i).Exits 0) → (w.hook k).Signaled →
      ∃ r, GitRunHooks.main fuel w = some r ∧ r.exit = EXIT_FAILURE ∧ r.exit ≠ 0 ∧
        r.spawned = hookSpawns (fun s => GitRunHooks.buildfilename basedir [s]) w.args w.hook
          ((GitRunHooks.hookList basedir w.access listing).take (k + 1)) 0 file) ∧
    (∀ (fuel : Nat) (w : GitGenericHook.World) (hookname basedir : CStr) (file : List Nat)
        (listing : List CStr) (k : Nat),
      GitGenericHook.setup fuel w = some (.ok (hookname, file)) →
      w.gitconfig = .ok (some basedir) → w.opendirBase = .ok () →
      w.opendir = .ok listing →
      k < (GitGenericHook.hookList (GitGenericHook.hookDir basedir hookname)
        w.access listing).length →
      (∀ i < k, (w.hook i).Exits 0) → (w.hook k).Signaled →
      ∃ r, GitGenericHook.main fuel w = some r ∧ r.exit = EXIT_FAILURE ∧ r.exit ≠ 0 ∧
        r.spawned = hookSpawns (fun s => GitGenericHook.xbuildfilename
            (GitGenericHook.hookDir basedir hookname) [s]) w.args w.hook
          ((GitGenericHook.hookList (GitGenericHook.hookDir basedir hookname)
            w.access listing).take (k + 1)) 0 file) := by
  constructor
  · intro fuel w basedir file listing k hs hd hk hex hsig
    refine ⟨_, GitRunHooks.main_of_setup fuel w basedir file hs, ?_⟩
    rw [GitRunHooks.dispatch_of_listing basedir file w listing hd,
      GitRunHooks.runHooks_first_signal basedir w.hook k _ 0 _ _ file [] hk
        (fun i hi => by simpa using hex i hi) (by simpa using hsig),
      GitRunHooks.roundSpawns_setupArgv]
    have hne : EXIT_FAILURE ≠ 0 := by decide
    exact ⟨rfl, hne, rfl⟩
  · intro fuel w hookname basedir file listing k hs hg hb hd hk hex hsig
    refine ⟨_, GitGenericHook.generic_main_of_setup fuel w hookname file hs, ?_⟩
    rw [GitGenericHook.hookList_eq] at hk
    rw [GitGenericHook.generic_dispatch_of_listing hookname file w basedir listing hg hb hd,
      GitRunHooks.runHooks_first_signal _ w.hook k _ 0 _ _ file [] hk
        (fun i hi => by simpa using hex i hi) (by simpa using hsig),
      GitRunHooks.roundSpawns_setupArgv, GitGenericHook.hookList_eq, GitGenericHook.join_eq]
    have hne : EXIT_FAILURE ≠ 0 := by decide
    exact ⟨rfl, hne, rfl⟩

/-- The directory `01-a`, `02-b`, `03-c` with `02-b` killed by signal 9. -/
theorem signaled_hook_aborts_with_fixed_code_witness :
    (∃ r, GitRunHooks.main 1024 (sampleRun (.ok sampleListing) sampleKilled) = some r ∧
      r.exit = 1 ∧ r.exit ≠ 0 ∧
      r.spawned =
        [⟨cstr "/h/01-a", [.str (cstr "01-a"), .str (cstr "refs/heads/main"), .null], 0,
            [104, 101, 108, 108, 111]⟩,
          ⟨cstr "/h/02-b", [.str (cstr "02-b"), .str (cstr "refs/heads/main"), .null], 0,
            [104, 101, 108, 108, 111]⟩]) ∧
    (∃ r, GitGenericHook.main 1024 (sampleGeneric (.ok sampleListing) sampleKilled) = some r ∧
      r.exit = 1 ∧ r.exit ≠ 0 ∧
      r.spawned =
        [⟨cstr "/h/update.d/01-a", [.str (cstr "01-a"), .str (cstr "refs/heads/main"), .null],
            0, [104, 101, 108, 108, 111]⟩,
          ⟨cstr "/h/update.d/02-b", [.str (cstr "02-b"), .str (cstr "refs/heads/main"), .null],
            0, [104, 101, 108, 108, 111]⟩]) :=
  ⟨signaled_hook_aborts_with_fixed_code.1 1024 (sampleRun (.ok sampleListing) sampleKilled)
      (cstr "/h//") [104, 101, 108, 108, 111] sampleListing 1
      (by rfl) (by rfl) (by decide) (by decide) (by decide),
    signaled_hook_aborts_with_fixed_code.2 1024 (sampleGeneric (.ok sampleListing) sampleKilled)
      (cstr "update") (cstr "/h//") [104, 101, 108, 108, 111] sampleListing 1
      (by rfl) (by rfl) (by rfl) (by rfl) (by decide) (by decide) (by decide)⟩

theorem spawn_failure_exits_127 (e : HookEnv) (hr : e.Runs) (hf : e.exec = .fails) :
    e.Exits 127 := by
  refine ⟨hr, ?_, ?_⟩ <;> rw [hf] <;> decide

theorem writeLoop_error (write : Nat → Nat → Int) (buffer : List Nat) (i : Nat) (r : Result) :
    ∀ (fuel calls j : Nat) (file : List Nat),
      GitRunHooks.writeLoop write buffer i fuel calls j file = some (.error r) →
      r = ⟨EXIT_FAILURE, false, []⟩
  | 0, calls, j, file, h => by
    rw [GitRunHooks.writeLoop] at h
    split_ifs at h
    cases h
  | fuel + 1, calls, j, file, h => by
    rw [GitRunHooks.writeLoop] at h
    by_cases h1 : j < i
    · rw [if_pos h1] at h
      by_cases h2 : write calls (i - j) < 0
      · simp only [if_pos h2] at h
        cases h; rfl
      · simp only [if_neg h2] at h
        exact writeLoop_error write buffer i r fuel _ _ _ h
    · rw [if_neg h1] at h
      cases h

theorem capture_error (fuel : Nat) (write : Nat → Nat → Int) (r : Result) :
    ∀ (reads : List Read) (calls : Nat) (file : List Nat),
      GitRunHooks.capture fuel write reads calls file = some (.error r) →
      r = ⟨EXIT_FAILURE, false, []⟩
  | [], _, _, h => by simp [GitRunHooks.capture] at h
  | .error :: _, _, _, h => by
    simp only [GitRunHooks.capture] at h
    cases h; rfl
  | .data buffer :: rest, calls, file, h => by
    simp only [GitRunHooks.capture] at h
    split_ifs at h
    · cases h
    · split at h
      · cases h
      · rename_i r' hw
        cases h
        exact writeLoop_error write buffer _ _ _ _ _ _ hw
      · exact capture_error fuel write r rest _ _ h

theorem capture_read_error (write : Nat → Nat → Int)
    (hw : ∀ calls count, 0 < count → 1 ≤ write calls count ∧ write calls count ≤ count)
    (fuel : Nat) (hfuel : 1024 ≤ fuel) (rest : List Read) :
    ∀ (chunks : List (List Nat)) (calls : Nat) (file : List Nat),
      (∀ c ∈ chunks, 1 ≤ c.length ∧ c.length ≤ 1024) →
      GitRunHooks.capture fuel write (chunks.map Read.data ++ Read.error :: rest) calls file =
        some (.error ⟨EXIT_FAILURE, false, []⟩)
  | [], _, _, _ => by simp [GitRunHooks.capture, GitRunHooks.xerr]
  | c :: more, calls, file, hc => by
    obtain ⟨h1, h2⟩ := hc c (by simp)
    obtain ⟨calls', hwl⟩ :=
      GitRunHooks.writeLoop_done write c hw fuel calls 0 file (Nat.zero_le _) (by omega)
    rw [List.map_cons, List.cons_append, GitRunHooks.capture, if_neg (by omega), hwl]
    exact capture_read_error write hw fuel hfuel rest more calls' _
      (fun d hd => hc d (by simp [hd]))

theorem capture_write_error (write : Nat → Nat → Int) (fuel : Nat) (buffer : List Nat)
    (rest : List Read) (calls : Nat) (file : List Nat) (hb : buffer ≠ [])
    (hw : write calls buffer.length < 0) (hfuel : 0 < fuel) :
    GitRunHooks.capture fuel write (Read.data buffer :: rest) calls file =
      some (.error ⟨EXIT_FAILURE, false, []⟩) := by
  have hlen : 0 < buffer.length := List.length_pos.2 hb
  obtain ⟨f, rfl⟩ : ∃ f, fuel = f + 1 := ⟨fuel - 1, by omega⟩
  rw [GitRunHooks.capture, if_neg (by omega), GitRunHooks.writeLoop, if_pos hlen]
  simp only [Nat.sub_zero, if_pos hw]
  rfl

theorem generic_writeLoop_eq (write : Nat → Nat → Int) (buffer : List Nat) (i : Nat) :
    ∀ (fuel calls j : Nat) (file : List Nat),
      GitGenericHook.writeLoop write buffer i fuel calls j file =
        GitRunHooks.writeLoop write buffer i fuel calls j file
  | 0, _, _, _ => rfl
  | fuel + 1, calls, j, file => by
    rw [GitGenericHook.writeLoop, GitRunHooks.writeLoop]
    simp only [generic_writeLoop_eq write buffer i fuel]
    rfl

theorem generic_capture_eq (fuel : Nat) (write : Nat → Nat → Int) :
    ∀ (reads : List Read) (calls : Nat) (file : List Nat),
      GitGenericHook.capture fuel write reads calls file =
        GitRunHooks.capture fuel write reads calls file
  | [], _, _ => rfl
  | .error :: _, _, _ => rfl
  | .data buffer :: rest, calls, file => by
    rw [GitGenericHook.capture, GitRunHooks.capture, generic_writeLoop_eq]
    split_ifs
    · rfl
    · cases GitRunHooks.writeLoop write buffer buffer.length fuel calls 0 file with
      | none => rfl
      | some x =>
        cases x with
        | error r => rfl
        | ok p => exact generic_capture_eq fuel write rest _ _

theorem run_hooks_setup_faults (fuel : Nat) (w : GitRunHooks.World) (basedir : CStr)
    (hp : GitRunHooks.parseOptions w.getopt none = .ok (some basedir)) :
    (w.getenv = none ∨ w.mkstemp < 0 ∨ (w.unlink < 0 ∧ w.unlinkErrno ≠ ENOENT) →
      GitRunHooks.main fuel w = some ⟨EXIT_FAILURE, false, []⟩) ∧
    (w.getenv ≠ none → 0 ≤ w.mkstemp → ¬ (w.unlink < 0 ∧ w.unlinkErrno ≠ ENOENT) →
      (∀ r, GitRunHooks.capture fuel w.write w.read 0 [] = some (.error r) →
        GitRunHooks.main fuel w = some ⟨EXIT_FAILURE, false, []⟩) ∧
      (∀ file, GitRunHooks.capture fuel w.write w.read 0 [] = some (.ok file) →
        w.dup2 < 0 ∨ w.close < 0 →
        GitRunHooks.main fuel w = some ⟨EXIT_FAILURE, false, []⟩)) := by
  constructor
  · intro h
    simp only [GitRunHooks.main, GitRunHooks.setup, hp]
    by_cases h1 : w.getenv = none
    · simp only [if_pos h1]; rfl
    by_cases h2 : w.mkstemp < 0
    · simp only [if_neg h1, if_pos h2]; rfl
    have h3 : w.unlink < 0 ∧ w.unlinkErrno ≠ ENOENT := by
      rcases h with h | h | h
      · exact absurd h h1
      · exact absurd h h2
      · exact h
    simp only [if_neg h1, if_neg h2, if_pos h3]; rfl
  · intro h1 h2 h3
    have h2' : ¬ w.mkstemp < 0 := not_lt.2 h2
    constructor
    · intro r hc
      have hr := capture_error fuel w.write r w.read 0 [] hc
      subst hr
      simp only [GitRunHooks.main, GitRunHooks.setup, hp, if_neg h1, if_neg h2', if_neg h3, hc]
    · intro file hc hf
      simp only [GitRunHooks.main, GitRunHooks.setup, hp, if_neg h1, if_neg h2', if_neg h3, hc]
      by_cases h4 : w.dup2 < 0
      · simp only [if_pos h4]; rfl
      · have h5 : w.close < 0 := hf.resolve_left h4
        simp only [if_neg h4, if_pos h5]; rfl

theorem generic_hook_setup_faults (fuel : Nat) (w : GitGenericHook.World) :
    ((∀ h ∈ GitGenericHook.HOOKNAMES,
        strcmp (GitGenericHook.hooknameLoop w.argv0 w.argv0) h ≠ 0) →
      GitGenericHook.main fuel w = some ⟨EXIT_FAILURE, false, []⟩) ∧
    ((∃ h ∈ GitGenericHook.HOOKNAMES,
        strcmp (GitGenericHook.hooknameLoop w.argv0 w.argv0) h = 0) →
      (w.getenv = none → GitGenericHook.main fuel w = some ⟨EXIT_FAILURE, false, []⟩) ∧
      (∀ gitdir, w.getenv = some gitdir →
        ((∃ item ∈ GitGenericHook.GITITEMS,
            w.accessR (GitGenericHook.xbuildfilename gitdir [item]) < 0) ∨
          w.mkstemp < 0 ∨ (w.unlink < 0 ∧ w.unlinkErrno ≠ ENOENT) →
          GitGenericHook.main fuel w = some ⟨EXIT_FAILURE, false, []⟩) ∧
        ((∀ item ∈ GitGenericHook.GITITEMS,
            0 ≤ w.accessR (GitGenericHook.xbuildfilename gitdir [item])) →
          0 ≤ w.mkstemp → ¬ (w.unlink < 0 ∧ w.unlinkErrno ≠ ENOENT) →
          (∀ r, GitGenericHook.capture fuel w.write w.read 0 [] = some (.error r) →
            GitGenericHook.main fuel w = some ⟨EXIT_FAILURE, false, []⟩) ∧
          (∀ file, GitGenericHook.capture fuel w.write w.read 0 [] = some (.ok file) →
            w.dup2 < 0 →
            GitGenericHook.main fuel w = some ⟨EXIT_FAILURE, false, []⟩)))) := by
  constructor
  · intro h
    have hn : (GitGenericHook.HOOKNAMES.find?
        (fun h => strcmp (GitGenericHook.hooknameLoop w.argv0 w.argv0) h = 0)).isNone = true := by
      rw [Option.isNone_iff_eq_none, List.find?_eq_none]
      intro x hx
      simpa using h x hx
    simp only [GitGenericHook.main, GitGenericHook.setup, hn, if_true]
    rfl
  · rintro ⟨h, hh, hz⟩
    have hn : ¬ (GitGenericHook.HOOKNAMES.find?
        (fun h => strcmp (GitGenericHook.hooknameLoop w.argv0 w.argv0) h = 0)).isNone = true := by
      rw [Option.isNone_iff_eq_none, List.find?_eq_none]
      intro hall
      exact absurd (by simpa using hz) (hall h hh)
    constructor
    · intro hg
      simp only [GitGenericHook.main, GitGenericHook.setup, if_neg hn, hg]
      rfl
    · intro gitdir hg
      constructor
      · intro hf
        simp only [GitGenericHook.main, GitGenericHook.setup, if_neg hn, hg]
        by_cases h1 : (GitGenericHook.GITITEMS.find? (fun item =>
            w.accessR (GitGenericHook.xbuildfilename gitdir [item]) < 0)).isSome = true
        · simp only [if_pos h1]; rfl
        by_cases h2 : w.mkstemp < 0
        · simp only [if_neg h1, if_pos h2]; rfl
        have h3 : w.unlink < 0 ∧ w.unlinkErrno ≠ ENOENT := by
          rcases hf with ⟨item, hi, hlt⟩ | hf | hf
          · exact absurd (List.find?_isSome.2 ⟨item, hi, by simpa using hlt⟩) h1
          · exact absurd hf h2
          · exact hf
        simp only [if_neg h1, if_neg h2, if_pos h3]; rfl
      · intro ha h2 h3
        have h1 : ¬ (GitGenericHook.GITITEMS.find? (fun item =>
            w.accessR (GitGenericHook.xbuildfilename gitdir [item]) < 0)).isSome = true := by
          intro hc
          obtain ⟨item, hi, hlt⟩ := List.find?_isSome.1 hc
          have := ha item hi
          have hlt' : w.accessR (GitGenericHook.xbuildfilename gitdir [item]) < 0 := by
            simpa using hlt
          omega
        have h2' : ¬ w.mkstemp < 0 := not_lt.2 h2
        constructor
        · intro r hc
          have hr := capture_error fuel w.write r w.read 0 []
            (by rw [← generic_capture_eq]; exact hc)
          subst hr
          simp only [GitGenericHook.main, GitGenericHook.setup, if_neg hn, hg, if_neg h1,
            if_neg h2', if_neg h3, hc]
        · intro file hc hd
          simp only [GitGenericHook.main, GitGenericHook.setup, if_neg hn, hg, if_neg h1,
            if_neg h2', if_neg h3, hc, if_pos hd]
          rfl

/-- C10, as the code has it: the dispatcher ends with `EXIT_FAILURE`, which is 1, when a
signal ends a hook and when one of its own calls fails: `lseek`, `fork` or `wait` in the
dispatch loop; `opendir` with an error other than `ENOENT` in `git-run-hooks` and `opendir`
of `hooks.basedir` in `git-generic-hook`; and in the set-up a hook name that is not known,
`GIT_DIR` unset or not a repository, `mkstemp`, `unlink`, `read`, `write`, `dup2`, `close`.
This code differs from 127, the code with which the child reports that `execv` failed; the
dispatcher sees that child as one that exits with code 127 and ends with exit code 127
itself.  When `gitconfig` of `git-generic-hook` ends the process, the exit code is the one
`gitconfig` chose, which this statement leaves open. -/
theorem fatal_code_is_exit_failure_spawn_sentinel_is_127 :
    (EXIT_FAILURE = 1 ∧ EXIT_FAILURE ≠ 127 ∧ WIFEXITED (child .fails) = true ∧
      WEXITSTATUS (child .fails) = 127) ∧
    (∀ (fuel : Nat) (w : GitRunHooks.World) (basedir : CStr),
      GitRunHooks.parseOptions w.getopt none = .ok (some basedir) →
      (w.getenv = none ∨ w.mkstemp < 0 ∨ (w.unlink < 0 ∧ w.unlinkErrno ≠ ENOENT) →
        GitRunHooks.main fuel w = some ⟨EXIT_FAILURE, false, []⟩) ∧
      (w.getenv ≠ none → 0 ≤ w.mkstemp → ¬ (w.unlink < 0 ∧ w.unlinkErrno ≠ ENOENT) →
        (∀ r, GitRunHooks.capture fuel w.write w.read 0 [] = some (.error r) →
          GitRunHooks.main fuel w = some ⟨EXIT_FAILURE, false, []⟩) ∧
        (∀ file, GitRunHooks.capture fuel w.write w.read 0 [] = some (.ok file) →
          w.dup2 < 0 ∨ w.close < 0 →
          GitRunHooks.main fuel w = some ⟨EXIT_FAILURE, false, []⟩))) ∧
    (∀ (fuel : Nat) (write : Nat → Nat → Int) (chunks : List (List Nat)) (rest : List Read),
      (∀ c ∈ chunks, 1 ≤ c.length ∧ c.length ≤ 1024) →
      (∀ calls count, 0 < count → 1 ≤ write calls count ∧ write calls count ≤ count) →
      1024 ≤ fuel →
      GitRunHooks.capture fuel write (chunks.map Read.data ++ Read.error :: rest) 0 [] =
        some (.error ⟨EXIT_FAILURE, false, []⟩) ∧
      GitGenericHook.capture fuel write (chunks.map Read.data ++ Read.error :: rest) 0 [] =
        some (.error ⟨EXIT_FAILURE, false, []⟩)) ∧
    (∀ (fuel : Nat) (write : Nat → Nat → Int) (buffer : List Nat) (rest : List Read),
      buffer ≠ [] → write 0 buffer.length < 0 → 0 < fuel →
      GitRunHooks.capture fuel write (Read.data buffer :: rest) 0 [] =
        some (.error ⟨EXIT_FAILURE, false, []⟩) ∧
      GitGenericHook.capture fuel write (Read.data buffer :: rest) 0 [] =
        some (.error ⟨EXIT_FAILURE, false, []⟩)) ∧
    (∀ (fuel : Nat) (w : GitRunHooks.World) (basedir : CStr) (file : List Nat) (errno : Nat),
      GitRunHooks.setup fuel w = some (.ok (basedir, file)) →
      w.opendir = .error errno → errno ≠ ENOENT →
      GitRunHooks.main fuel w = some ⟨EXIT_FAILURE, false, []⟩) ∧
    (∀ (fuel : Nat) (w : GitRunHooks.World) (basedir : CStr) (file : List Nat)
        (listing : List CStr) (k : Nat),
      GitRunHooks.setup fuel w = some (.ok (basedir, file)) →
      w.opendir = .ok listing →
      k < (GitRunHooks.hookList basedir w.access listing).length →
      (∀ i < k, (w.hook i).Exits 0) →
      ∃ r, GitRunHooks.main fuel w = some r ∧
        ((w.hook k).Runs ∧ (w.hook k).exec = .fails → r.exit = 127) ∧
        ((w.hook k).Signaled ∨ (w.hook k).lseek < 0 ∨ (w.hook k).fork < 0 ∨
            (w.hook k).WaitFails →
          r.exit = EXIT_FAILURE)) ∧
    (∀ (fuel : Nat) (w : GitGenericHook.World),
      ((∀ h ∈ GitGenericHook.HOOKNAMES,
          strcmp (GitGenericHook.hooknameLoop w.argv0 w.argv0) h ≠ 0) →
        GitGenericHook.main fuel w = some ⟨EXIT_FAILURE, false, []⟩) ∧
      ((∃ h ∈ GitGenericHook.HOOKNAMES,
          strcmp (GitGenericHook.hooknameLoop w.argv0 w.argv0) h = 0) →
        (w.getenv = none → GitGenericHook.main fuel w = some ⟨EXIT_FAILURE, false, []⟩) ∧
        (∀ gitdir, w.getenv = some gitdir →
          ((∃ item ∈ GitGenericHook.GITITEMS,
              w.accessR (GitGenericHook.xbuildfilename gitdir [item]) < 0) ∨
            w.mkstemp < 0 ∨ (w.unlink < 0 ∧ w.unlinkErrno ≠ ENOENT) →
            GitGenericHook.main fuel w = some ⟨EXIT_FAILURE, false, []⟩) ∧
          ((∀ item ∈ GitGenericHook.GITITEMS,
              0 ≤ w.accessR (GitGenericHook.xbuildfilename gitdir [item])) →
            0 ≤ w.mkstemp → ¬ (w.unlink < 0 ∧ w.unlinkErrno ≠ ENOENT) →
            (∀ r, GitGenericHook.capture fuel w.write w.read 0 [] = some (.error r) →
              GitGenericHook.main fuel w = some ⟨EXIT_FAILURE, false, []⟩) ∧
            (∀ file, GitGenericHook.capture fuel w.write w.read 0 [] = some (.ok file) →
              w.dup2 < 0 →
              GitGenericHook.main fuel w = some ⟨EXIT_FAILURE, false, []⟩))))) ∧
    (∀ (fuel : Nat) (w : GitGenericHook.World) (hookname : CStr) (file : List Nat),
      GitGenericHook.setup fuel w = some (.ok (hookname, file)) →
      (∀ code, w.gitconfig = .error code →
        GitGenericHook.main fuel w = some ⟨code, false, []⟩) ∧
      (∀ basedir errno, w.gitconfig = .ok (some basedir) → w.opendirBase = .error errno →
        GitGenericHook.main fuel w = some ⟨EXIT_FAILURE, false, []⟩)) ∧
    (∀ (fuel : Nat) (w : GitGenericHook.World) (hookname basedir : CStr) (file : List Nat)
        (listing : List CStr) (k : Nat),
      GitGenericHook.setup fuel w = some (.ok (hookname, file)) →
      w.gitconfig = .ok (some basedir) → w.opendirBase = .ok () →
      w.opendir = .ok listing →
      k < (GitGenericHook.hookList (GitGenericHook.hookDir basedir hookname)
        w.access listing).length →
      (∀ i < k, (w.hook i).Exits 0) →
      ∃ r, GitGenericHook.main fuel w = some r ∧
        ((w.hook k).Runs ∧ (w.hook k).exec = .fails → r.exit = 127) ∧
        ((w.hook k).Signaled ∨ (w.hook k).lseek < 0 ∨ (w.hook k).fork < 0 ∨
            (w.hook k).WaitFails →
          r.exit = EXIT_FAILURE)) := by
  refine ⟨by decide, run_hooks_setup_faults, ?_, ?_, ?_, ?_, generic_hook_setup_faults, ?_, ?_⟩
  · intro fuel write chunks rest hc hw hf
    have h := capture_read_error write hw fuel hf rest chunks 0 [] hc
    exact ⟨h, by rw [generic_capture_eq]; exact h⟩
  · intro fuel write buffer rest hb hw hf
    have h := capture_write_error write fuel buffer rest 0 [] hb hw hf
    exact ⟨h, by rw [generic_capture_eq]; exact h⟩
  · intro fuel w basedir file errno hs hd hne
    rw [GitRunHooks.main_of_setup fuel w basedir file hs]
    simp [GitRunHooks.dispatch, hd, hne, GitRunHooks.xerr]
  · intro fuel w basedir file listing k hs hd hk hex
    refine ⟨_, GitRunHooks.main_of_setup fuel w basedir file hs, ?_⟩
    rw [GitRunHooks.dispatch_of_listing basedir file w listing hd]
    have h := runHooks_stops basedir w.hook k _ (GitRunHooks.setupArgv w.args) file.length file
      hk hex
    exact ⟨fun hf => h.1 (spawn_failure_exits_127 _ hf.1 hf.2), h.2⟩
  · intro fuel w hookname file hs
    rw [GitGenericHook.generic_main_of_setup fuel w hookname file hs]
    constructor
    · intro code hg
      simp [GitGenericHook.dispatch, hg]
    · intro basedir errno hg hb
      simp [GitGenericHook.dispatch, hg, hb, GitGenericHook.xerr]
  · intro fuel w hookname basedir file listing k hs hg hb hd hk hex
    refine ⟨_, GitGenericHook.generic_main_of_setup fuel w hookname file hs, ?_⟩
    rw [GitGenericHook.hookList_eq] at hk
    rw [GitGenericHook.generic_dispatch_of_listing hookname file w basedir listing hg hb hd]
    have h := runHooks_stops (GitGenericHook.hookDir basedir hookname) w.hook k _
      (GitRunHooks.setupArgv w.args) 0 file hk hex
    exact ⟨fun hf => h.1 (spawn_failure_exits_127 _ hf.1 hf.2), h.2⟩

/-- In `git-run-hooks`: a hook that cannot be started gives exit code 127, a failing `mkstemp`
gives `EXIT_FAILURE`.  In `git-generic-hook`: a failing `wait`, a hook killed by signal 9 and
`argv[0]` with a name that is no hook give `EXIT_FAILURE`. -/
theorem fatal_code_is_exit_failure_spawn_sentinel_is_127_witness :
    (∃ r, GitRunHooks.main 1024 (sampleRun (.ok sampleListing) sampleNoExec) = some r ∧
      r.exit = 127) ∧
    GitRunHooks.main 1024 sampleNoTempFile = some ⟨EXIT_FAILURE, false, []⟩ ∧
    (∃ r, GitGenericHook.main 1024 (sampleGeneric (.ok sampleListing) sampleWaitFails) = some r ∧
      r.exit = EXIT_FAILURE) ∧
    (∃ r, GitGenericHook.main 1024 (sampleGeneric (.ok sampleListing) sampleKilled) = some r ∧
      r.exit = EXIT_FAILURE) ∧
    GitGenericHook.main 1024 sampleBadName = some ⟨EXIT_FAILURE, false, []⟩ :=
  ⟨(fatal_code_is_exit_failure_spawn_sentinel_is_127.2.2.2.2.2.1 1024
      (sampleRun (.ok sampleListing) sampleNoExec) (cstr "/h//") [104, 101, 108, 108, 111]
      sampleListing 1 (by rfl) (by rfl) (by decide) (by decide)).elim
      (fun r h => ⟨r, h.1, h.2.1 (by decide)⟩),
    (fatal_code_is_exit_failure_spawn_sentinel_is_127.2.1 1024 sampleNoTempFile (cstr "/h//")
      (by rfl)).1 (Or.inr (Or.inl (by decide))),
    (fatal_code_is_exit_failure_spawn_sentinel_is_127.2.2.2.2.2.2.2.2 1024
      (sampleGeneric (.ok sampleListing) sampleWaitFails) (cstr "update") (cstr "/h//")
      [104, 101, 108, 108, 111] sampleListing 1 (by rfl) (by rfl) (by rfl) (by rfl)
      (by decide) (by decide)).elim
      (fun r h => ⟨r, h.1, h.2.2 (Or.inr (Or.inr (Or.inr
        ⟨by decide, by decide, [(4000, 0)], (-1, 0), [], rfl, by decide, by decide⟩)))⟩),
    (fatal_code_is_exit_failure_spawn_sentinel_is_127.2.2.2.2.2.2.2.2 1024
      (sampleGeneric (.ok sampleListing) sampleKilled) (cstr "update") (cstr "/h//")
      [104, 101, 108, 108, 111] sampleListing 1 (by rfl) (by rfl) (by rfl) (by rfl)
      (by decide) (by decide)).elim
      (fun r h => ⟨r, h.1, h.2.2 (Or.inl (by decide))⟩),
    (fatal_code_is_exit_failure_spawn_sentinel_is_127.2.2.2.2.2.2.1 1024 sampleBadName).1
      (by decide)⟩

/-- C10 as stated fails: the dispatcher ends with 1 when signal 9 kills the second hook and
with 127 when `execv` cannot start it, so the fatal code is not the spawn-failure code. -/
theorem fatal_code_is_not_spawn_sentinel :
    ∃ killed noexec,
      GitRunHooks.main 1024 (sampleRun (.ok sampleListing) sampleKilled) = some killed ∧
      GitRunHooks.main 1024 (sampleRun (.ok sampleListing) sampleNoExec) = some noexec ∧
      killed.exit = 1 ∧ noexec.exit = 127 ∧ ¬ killed.exit = noexec.exit :=
  ⟨_, _, rfl, rfl, by decide, by decide, by decide⟩

end GitHooks
